import Mathlib

/-!
Verification of the droning host runtime core against its specification.

The Rust sources are shallowly embedded: bytes are `Nat` (each < 256),
machine integers are `Nat` with explicit `% 2 ^ w` where wraparound matters,
`f32` route costs are modelled as `ℚ` where only their ordering matters and
as `ℝ` where the logarithmic PDR formula itself is under scrutiny, and
fallible / panicking Rust code returns `Option` (`none` models a panic).
-/

namespace Droning

/-! ### Fragment codec (src/application/assembler.rs)

`FRAGMENT_DSIZE` is the wg_2024 compile-time constant, 128 in the reference.
Bytes are natural numbers below 256.
-/

def FRAGMENT_DSIZE : Nat := 128

/-- Fragment as in wg_2024 (`fragment_index`, `total_n_fragments`, `length`,
fixed 128-byte `data`).  Modelled from the spec: the wg_2024 crate itself is
an external dependency; `data` is a byte list of length 128. -/
structure Fragment where
  fragment_index : Nat
  total_n_fragments : Nat
  length : Nat
  data : List Nat
deriving DecidableEq, Repr

/-- Validity of a byte sequence as UTF-8, as checked by Rust's
`std::str::from_utf8` (RFC 3629: no overlongs, no surrogates, max U+10FFFF).
This models the `from_utf8` call inside `Assembler::compose_message`. -/
def utf8Valid : List Nat → Bool
  | [] => true
  | b :: rest =>
    if b < 0x80 then utf8Valid rest
    else if 0xC2 ≤ b && b ≤ 0xDF then
      match rest with
      | c :: r => (0x80 ≤ c && c ≤ 0xBF) && utf8Valid r
      | [] => false
    else if b == 0xE0 then
      match rest with
      | c :: d :: r =>
        (0xA0 ≤ c && c ≤ 0xBF) && (0x80 ≤ d && d ≤ 0xBF) && utf8Valid r
      | _ => false
    else if (0xE1 ≤ b && b ≤ 0xEC) || b == 0xEE || b == 0xEF then
      match rest with
      | c :: d :: r =>
        (0x80 ≤ c && c ≤ 0xBF) && (0x80 ≤ d && d ≤ 0xBF) && utf8Valid r
      | _ => false
    else if b == 0xED then
      match rest with
      | c :: d :: r =>
        (0x80 ≤ c && c ≤ 0x9F) && (0x80 ≤ d && d ≤ 0xBF) && utf8Valid r
      | _ => false
    else if b == 0xF0 then
      match rest with
      | c :: d :: e :: r =>
        (0x90 ≤ c && c ≤ 0xBF) && (0x80 ≤ d && d ≤ 0xBF) &&
          (0x80 ≤ e && e ≤ 0xBF) && utf8Valid r
      | _ => false
    else if 0xF1 ≤ b && b ≤ 0xF3 then
      match rest with
      | c :: d :: e :: r =>
        (0x80 ≤ c && c ≤ 0xBF) && (0x80 ≤ d && d ≤ 0xBF) &&
          (0x80 ≤ e && e ≤ 0xBF) && utf8Valid r
      | _ => false
    else if b == 0xF4 then
      match rest with
      | c :: d :: e :: r =>
        (0x80 ≤ c && c ≤ 0x8F) && (0x80 ≤ d && d ≤ 0xBF) &&
          (0x80 ≤ e && e ≤ 0xBF) && utf8Valid r
      | _ => false
    else false

/-- Total fragment count of `Disassembler::decompose_message`:
`len / FRAGMENT_DSIZE`, plus one when the division leaves a remainder. -/
def totalFragments (len : Nat) : Nat :=
  let count := len / FRAGMENT_DSIZE
  if len % FRAGMENT_DSIZE > 0 then count + 1 else count

/-- Byte slice `bytes[start..end]` of fragment `i` in
`Disassembler::decompose_message`, where `start = i * FRAGMENT_DSIZE` and
`end = min ((i+1) * FRAGMENT_DSIZE) bytes.len()`. -/
def fragmentSlice (bytes : List Nat) (i : Nat) : List Nat :=
  (bytes.drop (i * FRAGMENT_DSIZE)).take FRAGMENT_DSIZE

/-- The fragments built by `Disassembler::decompose_message` from the
serialized bytes: fragment `i` carries slice `i`, zero-padded to 128 bytes,
with `length` the true slice length.  The `BTreeMap` it returns iterates in
ascending `fragment_index`, i.e. exactly in construction order `0..total`. -/
def fragmentsOfBytes (bytes : List Nat) : List Fragment :=
  (List.range (totalFragments bytes.length)).map fun i =>
    let slice := fragmentSlice bytes i
    { fragment_index := i
      total_n_fragments := totalFragments bytes.length
      length := slice.length
      data := slice ++ List.replicate (FRAGMENT_DSIZE - slice.length) 0 }

/-- Result of `Assembler::compose_message`: Rust returns
`Result<Message, serde_json::Error>` but can also panic in the
`from_utf8(..).unwrap()` call; `panicked` models that panic. -/
inductive ComposeOut (M : Type) where
  | panicked
  | err
  | ok (m : M)
deriving DecidableEq, Repr

/-- Byte-level part of `Assembler::compose_message`: for each fragment take
`data[..length]`, require it to be valid UTF-8 on its own (the per-chunk
`from_utf8(..).unwrap()`; `none` models the panic), and concatenate. -/
def composeBytes : List Fragment → Option (List Nat)
  | [] => some []
  | frag :: rest =>
    let chunk := frag.data.take frag.length
    if utf8Valid chunk then (composeBytes rest).map (chunk ++ ·) else none

/-- `Assembler::compose_message`, parametric in the message deserializer
(`Message::deserialize`, i.e. `serde_json::from_str`, an external codec):
concatenate the chunks (panicking on invalid UTF-8), then deserialize. -/
def composeMessage {M : Type} (deser : List Nat → Option M)
    (frags : List Fragment) : ComposeOut M :=
  match composeBytes frags with
  | none => ComposeOut.panicked
  | some bytes =>
    match deser bytes with
    | none => ComposeOut.err
    | some m => ComposeOut.ok m

/-- `Disassembler::decompose_message`, parametric in the serializer
(`Message::serialize`, i.e. `serde_json::to_string`). -/
def decomposeMessage {M : Type} (ser : M → List Nat) (m : M) : List Fragment :=
  fragmentsOfBytes (ser m)

/-! ### Key-ordered association lists

Model of `std::collections::BTreeMap<u64, _>` (and, with iteration order
fixed arbitrarily, of `HashMap<u64, _>` where iteration order is never
observed).  Keys are kept strictly increasing so `values` iterates in
ascending key order, as `BTreeMap::values` does. -/

@[reducible] def AList (α : Type) : Type := List (Nat × α)

namespace AList

def lookup {α : Type} (k : Nat) : AList α → Option α
  | [] => none
  | e :: t => if k = e.1 then some e.2 else lookup k t

def insert {α : Type} (k : Nat) (v : α) : AList α → AList α
  | [] => [(k, v)]
  | e :: t =>
    if k < e.1 then (k, v) :: e :: t
    else if k = e.1 then (k, v) :: t
    else e :: insert k v t

def erase {α : Type} (k : Nat) : AList α → AList α
  | [] => []
  | e :: t => if k = e.1 then t else e :: erase k t

def values {α : Type} (m : AList α) : List α := m.map Prod.snd

def size {α : Type} (m : AList α) : Nat := m.length

end AList

/-! ### Assembler and Disassembler state (src/application/assembler.rs) -/

/-- `Assembler` state: `fragments: HashMap<u64, BTreeMap<u64, Fragment>>`. -/
structure Assembler where
  fragments : AList (AList Fragment)

namespace Assembler

def new : Assembler := ⟨[]⟩

/-- `Assembler::insert_fragment`: store the fragment under
`(session_id, fragment_index)` (the `entry(..).or_default()` plus
`BTreeMap::insert`); when the session's fragment count reaches
`fragment.total_n_fragments`, compose the values in ascending index order. -/
def insert_fragment {M : Type} (deser : List Nat → Option M)
    (a : Assembler) (session_id : Nat) (fragment : Fragment) :
    Option (ComposeOut M) × Assembler :=
  let frag_count := fragment.total_n_fragments
  let frag_vec := (a.fragments.lookup session_id).getD []
  let frag_vec := frag_vec.insert fragment.fragment_index fragment
  let a' : Assembler := ⟨a.fragments.insert session_id frag_vec⟩
  if frag_vec.size = frag_count then
    (some (composeMessage deser frag_vec.values), a')
  else
    (none, a')

/-- `Assembler::forget`. -/
def forget (a : Assembler) (session_id : Nat) : Assembler :=
  ⟨a.fragments.erase session_id⟩

end Assembler

/-- `Message<M>` of src/message/base_message.rs, with abstract content. -/
structure Message (C : Type) where
  source_id : Nat
  destination_id : Nat
  session_id : Nat
  content : C
deriving DecidableEq, Repr

/-- `Disassembler` state: outbound fragments, destinations and the
per-host session counter (`last_session_id: u64`). -/
structure Disassembler where
  fragments : AList (AList Fragment)
  destinations : AList Nat
  last_session_id : Nat

namespace Disassembler

def new : Disassembler := ⟨[], [], 0⟩

/-- `Disassembler::get_fragment`. -/
def get_fragment (d : Disassembler) (session_id fragment_index : Nat) :
    Option Fragment := do
  (← d.fragments.lookup session_id).lookup fragment_index

/-- `Disassembler::disassembly`: record the destination, store the decomposed
fragments keyed by index, and return them (in ascending index order, as
`BTreeMap::into_values` does). -/
def disassembly {C : Type} (ser : Message C → List Nat)
    (d : Disassembler) (message : Message C) :
    List Fragment × Disassembler :=
  let session_id := message.session_id
  let frags := decomposeMessage ser message
  let fragMap : AList Fragment := frags.map fun f => (f.fragment_index, f)
  (frags,
    { d with
      destinations := d.destinations.insert session_id message.destination_id
      fragments := d.fragments.insert session_id fragMap })

/-- `Disassembler::forget_fragment`: remove one fragment; when the session's
set empties, drop the session from both maps. -/
def forget_fragment (d : Disassembler) (session_id fragment_index : Nat) :
    Option Fragment × Disassembler :=
  match d.fragments.lookup session_id with
  | some frags =>
    let removed := frags.lookup fragment_index
    let frags' := frags.erase fragment_index
    if frags'.isEmpty then
      (removed, { d with fragments := d.fragments.erase session_id
                         destinations := d.destinations.erase session_id })
    else
      (removed, { d with fragments := d.fragments.insert session_id frags' })
  | none => (none, d)

/-- `Disassembler::new_session_id`: return the counter, then increment it
(u64 arithmetic: wraps at `2 ^ 64`). -/
def new_session_id (d : Disassembler) : Nat × Disassembler :=
  (d.last_session_id, { d with last_session_id := (d.last_session_id + 1) % 2 ^ 64 })

/-- `Disassembler::get_destination`. -/
def get_destination (d : Disassembler) (session_id : Nat) : Option Nat :=
  d.destinations.lookup session_id

/-- `Disassembler::transform_session_id`: `(node_id as u64) << 56 | session_id`. -/
def transform_session_id (session_id node_id : Nat) : Nat :=
  (node_id <<< 56) ||| session_id

end Disassembler

/-- `Client::new_session_id` (src/client/base_client.rs): mint the next
counter value and combine it with the host's id. -/
def clientNewSessionId (d : Disassembler) (id : Nat) : Nat × Disassembler :=
  let (sid, d') := d.new_session_id
  (Disassembler.transform_session_id sid id, d')

/-! ### Topology nodes (src/application/topology/node.rs) -/

def MEMORY_SIZE : Nat := 250

inductive ApplicationType where
  | Chat
  | Content
  | Unknown
  | Unwanted
deriving DecidableEq, Repr

namespace ApplicationType

/-- `ApplicationType::compatible`. -/
def compatible : ApplicationType → ApplicationType → Bool
  | Unknown, _ => true
  | _, Unknown => true
  | Unwanted, _ => false
  | _, Unwanted => false
  | a, b => a == b

end ApplicationType

inductive FragmentDelivery where
  | Forwarded
  | Dropped
deriving DecidableEq, Repr

/-- The `wg_2024::packet::NodeType` tag (`SimpleNodeType` in the source). -/
inductive SimpleNodeType where
  | Drone
  | Server
  | Client
deriving DecidableEq, Repr

/-- Per-drone rolling delivery history. -/
structure DroneInfo where
  latest_deliveries : List FragmentDelivery
deriving DecidableEq, Repr

namespace DroneInfo

def new : DroneInfo := ⟨[]⟩

def with_delivery (deliveries : List FragmentDelivery) : DroneInfo :=
  ⟨deliveries⟩

/-- `Drone::record_delivery`: push back, dropping the oldest past capacity. -/
def record_delivery (d : DroneInfo) (delivery : FragmentDelivery) : DroneInfo :=
  let l := d.latest_deliveries ++ [delivery]
  if MEMORY_SIZE < l.length then ⟨l.tail⟩ else ⟨l⟩

/-- `Drone::merge_drone`: append the other drone's outcomes one by one. -/
def merge_drone (d : DroneInfo) (other : DroneInfo) : DroneInfo :=
  other.latest_deliveries.foldl record_delivery d

/-- `Drone::calculate_pdr`, with the `f32` ratio modelled exactly in `ℚ`:
`0` below `MEMORY_SIZE / 10` observations, else dropped / total. -/
def calculate_pdr (d : DroneInfo) : ℚ :=
  if d.latest_deliveries.length < MEMORY_SIZE / 10 then 0
  else
    ((d.latest_deliveries.filter (· == FragmentDelivery.Dropped)).length : ℚ) /
      (d.latest_deliveries.length : ℚ)

end DroneInfo

inductive NodeType where
  | Drone (drone : DroneInfo)
  | Server (application : ApplicationType)
  | Client (application : ApplicationType)
deriving DecidableEq, Repr

namespace NodeType

/-- `NodeType::new` from a `wg_2024` simple node type. -/
def ofSimple : SimpleNodeType → NodeType
  | SimpleNodeType.Drone => Drone DroneInfo.new
  | SimpleNodeType.Server => Server ApplicationType.Unknown
  | SimpleNodeType.Client => Client ApplicationType.Unknown

def weak_counter_part : NodeType → NodeType
  | Drone d => Drone d
  | Server _ => Client ApplicationType.Unknown
  | Client _ => Server ApplicationType.Unknown

def strong_counter_part : NodeType → NodeType
  | Drone d => Drone d
  | Server a => Server a
  | Client a => Client a

def to_simple : NodeType → SimpleNodeType
  | Drone _ => SimpleNodeType.Drone
  | Server _ => SimpleNodeType.Server
  | Client _ => SimpleNodeType.Client

def application : NodeType → Option ApplicationType
  | Server a => some a
  | Client a => some a
  | _ => none

/-- Effect of writing through `NodeType::application_mut` (no-op on drones,
matching the `Option::map` over the mutable borrow at the call sites). -/
def setApplication (nt : NodeType) (a : ApplicationType) : NodeType :=
  match nt with
  | Server _ => Server a
  | Client _ => Client a
  | Drone d => Drone d

end NodeType

structure Node where
  id : Nat
  node_type : NodeType
deriving DecidableEq, Repr

namespace Node

/-- `Node::is_other_useful` (callers always pass a node with the same id, so
the `unreachable!()` guard is not modelled). -/
def is_other_useful (self other : Node) : Bool :=
  if self.node_type.to_simple ≠ other.node_type.to_simple then false
  else if self.node_type.application = some ApplicationType.Unknown then true
  else if self.node_type.application = some ApplicationType.Unwanted then false
  else
    match other.node_type with
    | NodeType.Drone drone => !drone.latest_deliveries.isEmpty
    | _ => false

/-- `Node::is_route_meaningful`. -/
def is_route_meaningful (self other : Node) : Bool :=
  if self.node_type.to_simple = SimpleNodeType.Drone ∨
      other.node_type.to_simple = SimpleNodeType.Drone then false
  else if self.node_type.weak_counter_part.to_simple ≠ other.node_type.to_simple
    then false
  else
    match self.node_type.application, other.node_type.application with
    | some app1, some app2 => app1.compatible app2
    | _, _ => false

end Node

/-! ### Topology graph

Modelled from the spec: the `graph` crate's `AdjacencyVecGraph` is an
external dependency; per spec section 3 it is an undirected simple graph
keyed by `NodeId` (no self-loops, at most one edge per unordered pair),
with `add_node`, `remove_node`, `add_undirected_edge`,
`remove_undirected_edge` and `adjacents`. -/

structure Graph where
  nodes : AList Node
  edges : List (Nat × Nat)

namespace Graph

def new : Graph := ⟨[], []⟩

/-- `add_node` inserts or replaces the node stored under `id`. -/
def add_node (g : Graph) (id : Nat) (node : Node) : Graph :=
  { g with nodes := g.nodes.insert id node }

def getNode (g : Graph) (id : Nat) : Option Node := g.nodes.lookup id

/-- Indexing `graph[&id]`, total with a default; every use below is guarded
so the default is never observed (Rust would panic on a missing key). -/
def getNodeD (g : Graph) (id : Nat) : Node :=
  (g.nodes.lookup id).getD ⟨0, NodeType.Client ApplicationType.Unknown⟩

def hasEdge (g : Graph) (from_ to_ : Nat) : Bool :=
  g.edges.any fun e => e = (from_, to_) ∨ e = (to_, from_)

/-- `add_undirected_edge`: idempotent upsert of the unordered pair,
self-loops refused. -/
def add_undirected_edge (g : Graph) (from_ to_ : Nat) : Graph :=
  if from_ = to_ ∨ g.hasEdge from_ to_ then g
  else { g with edges := g.edges ++ [(from_, to_)] }

/-- `remove_undirected_edge`: drop the unordered pair. -/
def remove_undirected_edge (g : Graph) (from_ to_ : Nat) : Graph :=
  { g with edges := g.edges.filter fun e => ¬(e = (from_, to_) ∨ e = (to_, from_)) }

/-- `adjacents`: neighbours of `id` along stored undirected edges. -/
def adjacents (g : Graph) (id : Nat) : List Nat :=
  g.edges.filterMap fun e =>
    if e.1 = id then some e.2 else if e.2 = id then some e.1 else none

end Graph

/-! ### Routes and the source router (src/application/routing.rs) -/

structure Route where
  hops : List Nat
deriving DecidableEq, Repr

/-- `wg_2024::network::SourceRoutingHeader`.  Modelled from the spec
(section 3 and section 9): full hop list plus current-hop index; reversal
copies the hops reversed and resets `hop_index` to 0. -/
structure SourceRoutingHeader where
  hops : List Nat
  hop_index : Nat
deriving DecidableEq, Repr

namespace SourceRoutingHeader

/-- `SourceRoutingHeader::initialize`: fresh header positioned at hop 0. -/
def mkInitial (hops : List Nat) : SourceRoutingHeader := ⟨hops, 0⟩

def empty_route : SourceRoutingHeader := ⟨[], 0⟩

/-- `get_reversed`: reversed hops, `hop_index` reset to 0. -/
def get_reversed (h : SourceRoutingHeader) : SourceRoutingHeader :=
  ⟨h.hops.reverse, 0⟩

/-- `next_hop`: `hops[hop_index + 1]`. -/
def next_hop (h : SourceRoutingHeader) : Option Nat :=
  h.hops.get? (h.hop_index + 1)

def increase_hop_index (h : SourceRoutingHeader) : SourceRoutingHeader :=
  { h with hop_index := h.hop_index + 1 }

/-- `source()`: the first hop. -/
def source (h : SourceRoutingHeader) : Option Nat := h.hops.head?

end SourceRoutingHeader

namespace Route

/-- `Route::cost`: the sum of the graph nodes' costs along the hops.  The
`f32` cost read from each node is supplied by `costOf` (see `Node.costR`
for the real-valued formula itself). -/
def cost (r : Route) (g : Graph) (costOf : Node → ℚ) : ℚ :=
  (r.hops.map fun id => costOf (g.getNodeD id)).sum

def to_source_routing_header (r : Route) : SourceRoutingHeader :=
  SourceRoutingHeader.mkInitial r.hops

def source (r : Route) : Option Nat := r.hops.head?

def destination (r : Route) : Option Nat := r.hops.getLast?

def get_incremented (r : Route) (last_hop : Nat) : Route := ⟨r.hops ++ [last_hop]⟩

def contains (r : Route) (adj : Nat) : Bool := r.hops.contains adj

/-- `Route::contains_edge`: some length-2 window equals `[from, to]`. -/
def contains_edge (r : Route) (from_ to_ : Nat) : Bool :=
  (r.hops.zip r.hops.tail).any fun w => w = (from_, to_)

end Route

/-- `f32::EPSILON`, exactly `2 ^ (-23)`. -/
def f32Epsilon : ℚ := 1 / 2 ^ 23

structure SourceRouter where
  graph : Graph
  source_id : Nat
  routes : List Route
  request_count : Nat

namespace SourceRouter

/-- `SourceRouter::new`. -/
def new (source : Node) : SourceRouter :=
  ⟨Graph.new.add_node source.id source, source.id, [], 0⟩

/-- `SourceRouter::get_best_route`: filter the stored routes by destination;
take the first one's cost as the minimum; keep the prefix whose cost stays
within `f32::EPSILON` of it; answer the entry at `request_count mod k` and
bump `request_count` (u64-size `usize`, overflow wraps).  An empty filter
returns `none` via the early `?`, leaving the counter untouched. -/
def get_best_route (costOf : Node → ℚ) (s : SourceRouter) (destination : Nat) :
    Option SourceRoutingHeader × SourceRouter :=
  let routes := s.routes.filter fun route => route.destination = some destination
  match routes.head? with
  | none => (none, s)
  | some first =>
    let min_cost := first.cost s.graph costOf
    let minimal_routes :=
      routes.takeWhile fun route => route.cost s.graph costOf - min_cost < f32Epsilon
    let route := minimal_routes.get? (s.request_count % minimal_routes.length)
    (route.map Route.to_source_routing_header,
      { s with request_count := (s.request_count + 1) % 2 ^ 64 })

/-- `SourceRouter::add_edge`. -/
def add_edge (s : SourceRouter) (from_ to_ : Nat) : SourceRouter :=
  { s with graph := s.graph.add_undirected_edge from_ to_ }

/-- `SourceRouter::remove_edge`: remove the undirected edge and retain only
the routes not containing the directed pair `(from, to)`. -/
def remove_edge (s : SourceRouter) (from_ to_ : Nat) : SourceRouter :=
  { s with
    graph := s.graph.remove_undirected_edge from_ to_
    routes := s.routes.filter fun route => ¬route.contains_edge from_ to_ }

/-- `SourceRouter::add_node`: merge policy for an already-known id
(trust the existing simple kind; replace hosts only when useful; merge
drone histories), plain insert for a new id. -/
def add_node (s : SourceRouter) (node : Node) : SourceRouter :=
  match s.graph.getNode node.id with
  | some current =>
    if current.is_other_useful node then
      match current.node_type with
      | NodeType.Drone drone =>
        match node.node_type with
        | NodeType.Drone new_drone =>
          let merged : Node := ⟨current.id, NodeType.Drone (drone.merge_drone new_drone)⟩
          { s with graph := s.graph.add_node node.id merged }
        | _ => s
      | _ => { s with graph := s.graph.add_node node.id node }
    else s
  | none => { s with graph := s.graph.add_node node.id node }

/-- `SourceRouter::unwanted_node`: mark the node's application `Unwanted`
when it has one, and drop every stored route ending at it. -/
def unwanted_node (s : SourceRouter) (node_id : Nat) : SourceRouter :=
  let graph :=
    match s.graph.getNode node_id with
    | some node =>
      s.graph.add_node node_id
        ⟨node.id, node.node_type.setApplication ApplicationType.Unwanted⟩
    | none => s.graph
  { s with
    graph := graph
    routes := s.routes.filter fun route => route.destination ≠ some node_id }

/-- `can_reach`: some stored route ends at the destination. -/
def can_reach (s : SourceRouter) (destination_id : Nat) : Bool :=
  s.routes.any fun route => route.destination = some destination_id

end SourceRouter

/-- `extend_route` (free function in routing.rs): extend a route by one edge
to every adjacent node it does not already contain. -/
def extend_route (g : Graph) (route : Route) : List Route :=
  ((g.adjacents ((route.destination).getD 0)).filter
      fun adj => ¬route.contains adj).map route.get_incremented

/-- One level of the `calculate_routes` loop body: extend every route of the
previous level. -/
def extendLevel (g : Graph) (level : List Route) : List Route :=
  level.flatMap (extend_route g)

/-- The level map built by the free `calculate_routes`: levels
`1, 2, ...` of simple paths from `self`, stopping when a level is empty.
The Rust loop variable is a `u8` running from 1, so at most 255 iterations
are performed; a topology needing longer simple paths than 256 hops (which
would require every one of the 256 node ids) is out of the loop's range. -/
def calcLevels (g : Graph) (source_id : Nat) : Nat → List Route
  | 0 => [⟨[source_id]⟩]
  | n + 1 => extendLevel g (calcLevels g source_id n)

/-- The free `calculate_routes`: concatenation of all non-empty levels (the
`HashMap` of levels flattened; level order is one admissible iteration
order, and every theorem below is invariant under permutation). -/
def calculate_routes_free (g : Graph) (source_id : Nat) : List Route :=
  (List.range 255).flatMap fun i => calcLevels g source_id i

/-- `SourceRouter::calculate_routes`: enumerate, retain exactly the routes
with two host hops whose endpoint pair is meaningful, and sort by cost
ascending (`sort_by` with `total_cmp`, a stable merge sort). -/
def SourceRouter.calculate_routes (costOf : Node → ℚ) (s : SourceRouter) :
    Nat × SourceRouter :=
  let routes := calculate_routes_free s.graph s.source_id
  let source_node := s.graph.getNodeD s.source_id
  let routes := routes.filter fun route =>
    let destination_node := s.graph.getNodeD ((route.destination).getD 0)
    let host_count := (route.hops.filter fun id =>
      match (s.graph.getNodeD id).node_type with
      | NodeType.Drone _ => false
      | _ => true).length
    host_count = 2 ∧ source_node.is_route_meaningful destination_node
  let routes := routes.mergeSort fun a b =>
    a.cost s.graph costOf ≤ b.cost s.graph costOf
  (routes.length, { s with routes })

/-! ### Packets (wg_2024 wire types)

Modelled from the spec, section 3: the wg_2024 crate is an external
dependency.  `Packet` carries a session id, a routing header and one of the
five payload kinds. -/

inductive NackType where
  | ErrorInRouting (node : Nat)
  | DestinationIsDrone
  | Dropped
  | UnexpectedRecipient (node : Nat)
deriving DecidableEq, Repr

structure NackPack where
  fragment_index : Nat
  nack_type : NackType
deriving DecidableEq, Repr

structure AckPack where
  fragment_index : Nat
deriving DecidableEq, Repr

structure FloodRequestPack where
  flood_id : Nat
  initiator_id : Nat
  path_trace : List (Nat × SimpleNodeType)
deriving DecidableEq, Repr

structure FloodResponsePack where
  flood_id : Nat
  path_trace : List (Nat × SimpleNodeType)
deriving DecidableEq, Repr

inductive PacketType where
  | MsgFragment (fragment : Fragment)
  | Ack (ack : AckPack)
  | Nack (nack : NackPack)
  | FloodRequest (request : FloodRequestPack)
  | FloodResponse (response : FloodResponsePack)
deriving DecidableEq, Repr

structure Packet where
  routing_header : SourceRoutingHeader
  session_id : Nat
  pack_type : PacketType
deriving DecidableEq, Repr

namespace Packet

def new_ack (routing_header : SourceRoutingHeader) (session_id fragment_index : Nat) :
    Packet :=
  ⟨routing_header, session_id, PacketType.Ack ⟨fragment_index⟩⟩

def new_nack (routing_header : SourceRoutingHeader) (session_id : Nat)
    (nack : NackPack) : Packet :=
  ⟨routing_header, session_id, PacketType.Nack nack⟩

def new_fragment (routing_header : SourceRoutingHeader) (session_id : Nat)
    (fragment : Fragment) : Packet :=
  ⟨routing_header, session_id, PacketType.MsgFragment fragment⟩

end Packet

namespace FloodRequestPack

/-- `FloodRequest::increment`: append `(id, kind)` to the path trace.
Modelled from the spec, section 4.F. -/
def increment (r : FloodRequestPack) (id : Nat) (kind : SimpleNodeType) :
    FloodRequestPack :=
  { r with path_trace := r.path_trace ++ [(id, kind)] }

/-- `FloodRequest::generate_response`: a `FloodResponse` routed along the
reversed path trace.  Modelled from the spec, sections 4.F and 9. -/
def generate_response (r : FloodRequestPack) (session_id : Nat) : Packet :=
  ⟨SourceRoutingHeader.mkInitial (r.path_trace.map Prod.fst).reverse,
    session_id,
    PacketType.FloodResponse ⟨r.flood_id, r.path_trace⟩⟩

end FloodRequestPack

/-! ### Information extraction (src/application/topology/information.rs)

Each `get_information` is translated arm by arm; the `iter.next().unwrap()`
on the first hop panics on an empty hop list, modelled by `Option`. -/

inductive Information where
  | AddNode (node : Node)
  | AddEdge (from_ to_ : Nat)
  | RemoveEdge (from_ to_ : Nat)

/-- The consecutive-hop edges `zip(iter, iter.skip(1))` common to every arm. -/
def hopEdges (hops : List Nat) : List Information :=
  (hops.zip hops.tail).map fun e => Information.AddEdge e.1 e.2

/-- `InformationPack for (&SourceRoutingHeader, &Fragment)`: first hop is the
weak counterpart of the receiving host, the rest are drones credited with a
`Forwarded` outcome, the last entry is popped (the reporter/destination gets
no synthetic outcome), then the consecutive edges follow. -/
def infoFragment (hops : List Nat) (source_node : Node) :
    Option (List Information) :=
  match hops with
  | [] => none
  | first_id :: rest =>
    let nodes :=
      Information.AddNode ⟨first_id, source_node.node_type.weak_counter_part⟩ ::
        rest.map fun id =>
          Information.AddNode
            ⟨id, NodeType.Drone (DroneInfo.with_delivery [FragmentDelivery.Forwarded])⟩
    some (nodes.dropLast ++ hopEdges hops)

/-- `InformationPack for (&SourceRoutingHeader, &Ack)`: first hop is the
strong counterpart, the rest are drones with empty history, last popped. -/
def infoAck (hops : List Nat) (source_node : Node) :
    Option (List Information) :=
  match hops with
  | [] => none
  | first_id :: rest =>
    let nodes :=
      Information.AddNode ⟨first_id, source_node.node_type.strong_counter_part⟩ ::
        rest.map fun id =>
          Information.AddNode ⟨id, NodeType.Drone DroneInfo.new⟩
    some (nodes.dropLast ++ hopEdges hops)

/-- `InformationPack for (&SourceRoutingHeader, &Nack)`, arm by arm. -/
def infoNack (hops : List Nat) (nack : NackPack) (source_node : Node) :
    Option (List Information) :=
  match nack.nack_type with
  | NackType.ErrorInRouting not_connected =>
    match hops with
    | [] => none
    | first_id :: rest =>
      let nodes :=
        Information.AddNode ⟨first_id, NodeType.Drone DroneInfo.new⟩ ::
          rest.map fun id =>
            Information.AddNode
              ⟨id, NodeType.Drone (DroneInfo.with_delivery [FragmentDelivery.Forwarded])⟩
      some (nodes.dropLast ++ hopEdges hops ++
        [Information.RemoveEdge first_id not_connected])
  | NackType.DestinationIsDrone =>
    let nodes := hops.map fun id =>
      Information.AddNode
        ⟨id, NodeType.Drone (DroneInfo.with_delivery [FragmentDelivery.Forwarded])⟩
    some (nodes.dropLast ++ hopEdges hops)
  | NackType.Dropped =>
    match hops with
    | [] => none
    | first_id :: rest =>
      let nodes :=
        Information.AddNode
            ⟨first_id, NodeType.Drone (DroneInfo.with_delivery [FragmentDelivery.Dropped])⟩ ::
          rest.map fun id =>
            Information.AddNode
              ⟨id, NodeType.Drone (DroneInfo.with_delivery [FragmentDelivery.Forwarded])⟩
      some (nodes.dropLast ++ hopEdges hops)
  | NackType.UnexpectedRecipient who =>
    match hops with
    | [] => none
    | first_id :: rest =>
      let nodes :=
        Information.AddNode
            ⟨first_id, NodeType.Drone (DroneInfo.with_delivery [FragmentDelivery.Dropped])⟩ ::
          rest.map fun id =>
            Information.AddNode
              ⟨id, NodeType.Drone (DroneInfo.with_delivery [FragmentDelivery.Forwarded])⟩
      match source_node.node_type.application with
      | none => none
      | some my_application =>
        let other_node : Node :=
          ⟨who, source_node.node_type.weak_counter_part.setApplication my_application⟩
        some (nodes.dropLast ++ [Information.AddNode other_node] ++ hopEdges hops)

/-- `InformationPack for &FloodRequest` and `&FloodResponse`: every path
trace entry becomes a node, consecutive trace ids become edges. -/
def infoPathTrace (path_trace : List (Nat × SimpleNodeType)) : List Information :=
  (path_trace.map fun e => Information.AddNode ⟨e.1, NodeType.ofSimple e.2⟩) ++
    (((path_trace.map Prod.fst).zip (path_trace.map Prod.fst).tail).map
      fun e => Information.AddEdge e.1 e.2)

/-- `InformationPack for Packet`: dispatch on the payload kind. -/
def packetInformation (p : Packet) (source_node : Node) :
    Option (List Information) :=
  match p.pack_type with
  | PacketType.MsgFragment _ => infoFragment p.routing_header.hops source_node
  | PacketType.Ack _ => infoAck p.routing_header.hops source_node
  | PacketType.Nack nack => infoNack p.routing_header.hops nack source_node
  | PacketType.FloodRequest request => some (infoPathTrace request.path_trace)
  | PacketType.FloodResponse response => some (infoPathTrace response.path_trace)

/-- `SourceRouter::update_graph`: apply every extracted information item in
order (`none` propagates the extraction panic on an empty hop list). -/
def SourceRouter.update_graph (s : SourceRouter) (p : Packet) :
    Option SourceRouter :=
  match packetInformation p (s.graph.getNodeD s.source_id) with
  | none => none
  | some infos =>
    some (infos.foldl (fun s info =>
      match info with
      | Information.AddNode node => s.add_node node
      | Information.AddEdge from_ to_ => s.add_edge from_ to_
      | Information.RemoveEdge from_ to_ => s.remove_edge from_ to_) s)

/-! ### Host state machines (src/server/base_server.rs, src/client/base_client.rs)

The mutable host state relevant to per-packet handling.  `packet_send` is
the set of neighbour ids holding a live channel; sent packets are collected
as `(neighbour, packet)` pairs, controller events as `HostEvent`s.  Every
`unwrap`/`expect`/`todo!` reachable in the handler is modelled by `Option`
(`none` = panic); channel sends themselves always succeed, as in the
simulation's channel model. -/

structure HostState where
  id : Nat
  router : SourceRouter
  assembler : Assembler
  disassembler : Disassembler
  packet_send : List Nat

/-- Controller events, with `Message<String>` contents abstracted to the
`(source_id, destination_id, session_id)` triple that
`to_string_message` preserves. -/
inductive HostEvent where
  | MessageSent (source_id destination_id session_id : Nat)
  | MessageReceived (source_id destination_id session_id : Nat)
  | FloodInitiated (id flood_id : Nat)
deriving DecidableEq, Repr

/-- Event payload of `to_string_message`. -/
def Message.eventSent {C : Type} (m : Message C) : HostEvent :=
  HostEvent.MessageSent m.source_id m.destination_id m.session_id

def Message.eventReceived {C : Type} (m : Message C) : HostEvent :=
  HostEvent.MessageReceived m.source_id m.destination_id m.session_id

/-- `Server::forward_packet`: look the sender up under
`next_hop().unwrap()` (panicking when the header has no next hop), advance
`hop_index`, and send when the neighbour channel exists. -/
def serverForward (packet_send : List Nat) (p : Packet) :
    Option (List (Nat × Packet)) :=
  match p.routing_header.next_hop with
  | none => none
  | some nh =>
    let p' := { p with routing_header := p.routing_header.increase_hop_index }
    if packet_send.contains nh then some [(nh, p')] else some []

/-- `Client::forward`: like the server's, but both the missing next hop and
the missing neighbour are silent no-ops. -/
def clientForward (packet_send : List Nat) (p : Packet) : List (Nat × Packet) :=
  match p.routing_header.next_hop with
  | none => []
  | some nh =>
    let p' := { p with routing_header := p.routing_header.increase_hop_index }
    if packet_send.contains nh then [(nh, p')] else []

/-- One iteration per fragment of the `Server::send_response` loop:
recompute routes when the destination is unreachable, pick the best route
(`unwrap` panics when none exists), and forward the fragment. -/
def serverSendLoop (costOf : Node → ℚ) (packet_send : List Nat)
    (destination session : Nat) :
    List Fragment → SourceRouter → List (Nat × Packet) →
    Option (SourceRouter × List (Nat × Packet))
  | [], router, sent => some (router, sent)
  | frag :: rest, router, sent =>
    let router :=
      if router.can_reach destination then router
      else (router.calculate_routes costOf).2
    match router.get_best_route costOf destination with
    | (none, _) => none
    | (some hdr, router) =>
      match serverForward packet_send (Packet.new_fragment hdr session frag) with
      | none => none
      | some out => serverSendLoop costOf packet_send destination session rest
          router (sent ++ out)

/-- `Server::send_response`: disassemble the response and send every
fragment along the current best route to its destination. -/
def serverSendResponse {Cresp : Type} (serResp : Message Cresp → List Nat)
    (costOf : Node → ℚ) (packet_send : List Nat)
    (router : SourceRouter) (disassembler : Disassembler)
    (response : Message Cresp) :
    Option (SourceRouter × Disassembler × List (Nat × Packet)) :=
  let destination := response.destination_id
  let session := response.session_id
  match disassembler.disassembly serResp response with
  | (fragments, disassembler) =>
    match serverSendLoop costOf packet_send destination session fragments
        router [] with
    | none => none
    | some (router, sent) => some (router, disassembler, sent)

/-- `Server::retransmit`: `get_fragment(..).unwrap()`,
`get_destination(..).unwrap()` and `get_best_route(..).unwrap()` all panic
when absent. -/
def serverRetransmit (costOf : Node → ℚ) (packet_send : List Nat)
    (router : SourceRouter) (disassembler : Disassembler)
    (session_id fragment_index : Nat) :
    Option (SourceRouter × List (Nat × Packet)) :=
  match disassembler.get_fragment session_id fragment_index with
  | none => none
  | some frag =>
    match disassembler.get_destination session_id with
    | none => none
    | some destination =>
      match router.get_best_route costOf destination with
      | (none, _) => none
      | (some hdr, router) =>
        match serverForward packet_send
            (Packet.new_fragment hdr session_id frag) with
        | none => none
        | some out => some (router, out)

/-- `Server::handle_packet`, branch by branch. -/
def handleServerPacket {Creq Cresp : Type}
    (deserReq : List Nat → Option (Message Creq))
    (serResp : Message Cresp → List Nat)
    (handle_request : Message Creq → Nat → Message Cresp)
    (costOf : Node → ℚ) (s : HostState) (packet : Packet) :
    Option (HostState × List (Nat × Packet) × List HostEvent) :=
  match s.router.update_graph packet with
  | none => none
  | some router =>
    let session_id := packet.session_id
    let routing_header := packet.routing_header
    match packet.pack_type with
    | PacketType.MsgFragment frag =>
      let fragment_index := frag.fragment_index
      let ack := Packet.new_ack routing_header.get_reversed session_id fragment_index
      match serverForward s.packet_send ack with
      | none => none
      | some ackSent =>
        match s.assembler.insert_fragment deserReq session_id frag with
        | (none, assembler) =>
          some ({ s with router, assembler }, ackSent, [])
        | (some (ComposeOut.ok message), assembler) =>
          let received := Message.eventReceived message
          let response := handle_request message s.id
          let sentEvent := Message.eventSent response
          match serverSendResponse serResp costOf s.packet_send router
              s.disassembler response with
          | none => none
          | some (router, disassembler, out) =>
            some ({ s with router, assembler, disassembler },
              ackSent ++ out, [received, sentEvent])
        | (some ComposeOut.err, assembler) =>
          let nack := Packet.new_nack routing_header.get_reversed session_id
            ⟨0, NackType.UnexpectedRecipient s.id⟩
          match serverForward s.packet_send nack with
          | none => none
          | some out => some ({ s with router, assembler }, ackSent ++ out, [])
        | (some ComposeOut.panicked, _) => none
    | PacketType.Ack ack =>
      match s.disassembler.forget_fragment session_id ack.fragment_index with
      | (_, disassembler) => some ({ s with router, disassembler }, [], [])
    | PacketType.Nack nack_pack =>
      match nack_pack.nack_type with
      | NackType.ErrorInRouting _ =>
        match serverRetransmit costOf s.packet_send router s.disassembler
            session_id nack_pack.fragment_index with
        | none => none
        | some (router, out) => some ({ s with router }, out, [])
      | NackType.Dropped =>
        match serverRetransmit costOf s.packet_send router s.disassembler
            session_id nack_pack.fragment_index with
        | none => none
        | some (router, out) => some ({ s with router }, out, [])
      | NackType.DestinationIsDrone => some ({ s with router }, [], [])
      | NackType.UnexpectedRecipient _ => some ({ s with router }, [], [])
    | PacketType.FloodRequest request =>
      let request := request.increment s.id SimpleNodeType.Server
      let resp_packet := request.generate_response session_id
      match serverForward s.packet_send resp_packet with
      | none => none
      | some out => some ({ s with router }, out, [])
    | PacketType.FloodResponse _ => some ({ s with router }, [], [])

/-- `Client::retransmit`: a missing fragment is a silent no-op, but
`get_destination(..).unwrap()` and `get_best_route(..).unwrap()` panic. -/
def clientRetransmit (costOf : Node → ℚ) (packet_send : List Nat)
    (router : SourceRouter) (disassembler : Disassembler)
    (session_id fragment_index : Nat) :
    Option (SourceRouter × List (Nat × Packet)) :=
  match disassembler.get_fragment session_id fragment_index with
  | none => some (router, [])
  | some fragment =>
    match disassembler.get_destination session_id with
    | none => none
    | some destination =>
      match router.get_best_route costOf destination with
      | (none, _) => none
      | (some routing_header, router) =>
        some (router, clientForward packet_send
          (Packet.new_fragment routing_header session_id fragment))

/-- `Client::handle_packet_normal`, branch by branch.  The fourth component
collects the messages delivered to `on_response_received`. -/
def handleClientPacket {Cresp : Type}
    (deserResp : List Nat → Option (Message Cresp))
    (costOf : Node → ℚ) (s : HostState) (packet : Packet) :
    Option (HostState × List (Nat × Packet) × List HostEvent × List (Message Cresp)) :=
  match s.router.update_graph packet with
  | none => none
  | some router =>
    let session_id := packet.session_id
    match packet.pack_type with
    | PacketType.MsgFragment frag =>
      match packet.routing_header.source with
      | none => none
      | some src =>
        match router.get_best_route costOf src with
        | (none, _) => none
        | (some hdr, router) =>
          let quack := Packet.new_ack hdr session_id frag.fragment_index
          let ackSent := clientForward s.packet_send quack
          match s.assembler.insert_fragment deserResp session_id frag with
          | (none, assembler) =>
            some ({ s with router, assembler }, ackSent, [], [])
          | (some (ComposeOut.ok message), assembler) =>
            let assembler := assembler.forget session_id
            some ({ s with router, assembler }, ackSent,
              [Message.eventReceived message], [message])
          | (some ComposeOut.err, _) => none
          | (some ComposeOut.panicked, _) => none
    | PacketType.Ack quack =>
      match s.disassembler.forget_fragment session_id quack.fragment_index with
      | (_, disassembler) => some ({ s with router, disassembler }, [], [], [])
    | PacketType.Nack quacknt =>
      match quacknt.nack_type with
      | NackType.ErrorInRouting _ =>
        match clientRetransmit costOf s.packet_send router s.disassembler
            session_id quacknt.fragment_index with
        | none => none
        | some (router, out) => some ({ s with router }, out, [], [])
      | NackType.DestinationIsDrone => some ({ s with router }, [], [], [])
      | NackType.Dropped =>
        match clientRetransmit costOf s.packet_send router s.disassembler
            session_id quacknt.fragment_index with
        | none => none
        | some (router, out) => some ({ s with router }, out, [], [])
      | NackType.UnexpectedRecipient id =>
        some ({ s with router := router.unwanted_node id }, [], [], [])
    | PacketType.FloodRequest request =>
      let request := request.increment s.id SimpleNodeType.Client
      let response := request.generate_response session_id
      some ({ s with router }, clientForward s.packet_send response, [], [])
    | PacketType.FloodResponse _ => some ({ s with router }, [], [], [])

/-! ### The real-valued PDR cost (src/application/topology/node.rs)

`NodeType::cost` computes `(1 - ALPHA) * (1 / (1 - pdr.min(0.9999))).log(2.0)
+ ALPHA` in `f32`; the formula itself is modelled over `ℝ`. -/

/-- Drone branch of `NodeType::cost` as a function of the observed drop
ratio. -/
noncomputable def droneCostR (pdr : ℚ) : ℝ :=
  (1 - 0.1) * Real.logb 2 (1 / (1 - min (pdr : ℝ) 0.9999)) + 0.1

/-- `NodeType::cost`: the PDR formula for drones, zero for hosts. -/
noncomputable def NodeType.costR : NodeType → ℝ
  | NodeType.Drone drone => droneCostR drone.calculate_pdr
  | _ => 0

noncomputable def Node.costR (n : Node) : ℝ := n.node_type.costR

/-- `Route::cost` with the real-valued node cost. -/
noncomputable def Route.costR (r : Route) (g : Graph) : ℝ :=
  (r.hops.map fun id => (g.getNodeD id).costR).sum

/-! ### Iterated route requests and reachable disassembler states -/

/-- The outputs of `n` consecutive `get_best_route` calls for a fixed
destination. -/
def getBestRouteIter (costOf : Node → ℚ) (destination : Nat) :
    Nat → SourceRouter → List (Option SourceRoutingHeader)
  | 0, _ => []
  | n + 1, s =>
    let (r, s') := s.get_best_route costOf destination
    r :: getBestRouteIter costOf destination n s'

/-- The `n`-th session id minted by a host (`Disassembler::new_session_id`
composed with `transform_session_id`, as in `Client::new_session_id`),
starting from the given disassembler state. -/
def mintNth (id : Nat) : Nat → Disassembler → Nat
  | 0, d => (clientNewSessionId d id).1
  | n + 1, d => mintNth id n (clientNewSessionId d id).2

/-- Strictly-increasing-keys well-formedness of an association list; every
map reachable through the `AList` operations from `[]` satisfies it. -/
def AList.WF {α : Type} (l : AList α) : Prop :=
  l.Pairwise fun a b => a.1 < b.1

/-- Disassembler states reachable through the public operations
(`disassembly`, `forget_fragment`, `new_session_id`; `get_fragment` and
`get_destination` do not mutate). -/
inductive DisassemblerReachable : Disassembler → Prop where
  | init : DisassemblerReachable Disassembler.new
  | disassembly {d : Disassembler} {C : Type} (ser : Message C → List Nat)
      (m : Message C) : DisassemblerReachable d →
      DisassemblerReachable (d.disassembly ser m).2
  | forget_fragment {d : Disassembler} (session_id fragment_index : Nat) :
      DisassemblerReachable d →
      DisassemblerReachable (d.forget_fragment session_id fragment_index).2
  | new_session_id {d : Disassembler} : DisassemblerReachable d →
      DisassemblerReachable d.new_session_id.2

/-- The C10 invariant: a session id keys `destinations` iff it keys
`fragments`. -/
def keysAligned (d : Disassembler) : Prop :=
  ∀ sid : Nat,
    (d.fragments.lookup sid).isSome ↔ (d.destinations.lookup sid).isSome

/-! ### Concrete instances

Closed data used by the witnesses and counterexamples below. -/

/-- The exact `f32` value of `NodeType::cost` on every node whose drone
history holds fewer than `MEMORY_SIZE / 10` observations (`pdr = 0`, so the
drone cost is exactly `ALPHA = 0.1`) and on hosts (`0`); all concrete
topologies below stay in this regime. -/
def costLowHistory : Node → ℚ := fun n =>
  match n.node_type with
  | NodeType.Drone _ => 1 / 10
  | _ => 0

/-- A two-byte ASCII serialization, with its inverse. -/
def asciiBytes : List Nat := [104, 105]

def asciiSer : Unit → List Nat := fun _ => asciiBytes

def asciiDeser : List Nat → Option Unit :=
  fun b => if b = asciiBytes then some () else none

/-- A 129-byte serialization ending in the two-byte UTF-8 sequence for
U+00E9 (as `serde_json::to_string` produces for non-ASCII string content,
which passes through unescaped): byte 127 opens the sequence, byte 128
closes it, so the 128-byte fragment boundary splits the character. -/
def straddleBytes : List Nat := List.replicate 127 48 ++ [195, 169]

def straddleSer : Unit → List Nat := fun _ => straddleBytes

def straddleDeser : List Nat → Option Unit :=
  fun b => if b = straddleBytes then some () else none

/-- Trivial content codec and behaviour for the host-level runs: requests
and responses both have `Unit` content. -/
def unitMsgDeserNone : List Nat → Option (Message Unit) := fun _ => none

def unitMsgSer : Message Unit → List Nat := fun _ => [66]

/-- A server behaviour answering with the swapped endpoints, as
`Message::generate_response` does. -/
def unitHandleRequest : Message Unit → Nat → Message Unit :=
  fun m _ => ⟨m.destination_id, m.source_id, m.session_id, ()⟩

/-- A single fragment whose one meaningful data byte `0xFF` is not valid
UTF-8. -/
def badFragment : Fragment := ⟨0, 1, 1, 255 :: List.replicate 127 0⟩

/-- A structurally well-formed inbound packet for server 2 from client 1,
carrying `badFragment`. -/
def badUtf8Packet : Packet := ⟨⟨[1, 2], 1⟩, 5, PacketType.MsgFragment badFragment⟩

/-- Server 2, freshly constructed, with a channel to neighbour 1. -/
def server2 : HostState :=
  ⟨2, SourceRouter.new ⟨2, NodeType.Server ApplicationType.Chat⟩,
    Assembler.new, Disassembler.new, [1]⟩

/-- Client 10's router: hosts 5 (server) and 10 (self), drones 42 and 99,
one stored route `10 → 42 → 5`. -/
def client10Router : SourceRouter :=
  ⟨⟨[(5, ⟨5, NodeType.Server ApplicationType.Chat⟩),
     (10, ⟨10, NodeType.Client ApplicationType.Chat⟩),
     (42, ⟨42, NodeType.Drone DroneInfo.new⟩),
     (99, ⟨99, NodeType.Drone DroneInfo.new⟩)],
    [(10, 42), (42, 5), (10, 99), (99, 5)]⟩,
   10, [⟨[10, 42, 5]⟩], 0⟩

def client10 : HostState :=
  ⟨10, client10Router, Assembler.new, Disassembler.new, [42, 99]⟩

/-- An incomplete (1 of 2) inbound fragment for client 10, routed
`5 → 99 → 10`. -/
def fragPacketVia99 : Packet :=
  ⟨⟨[5, 99, 10], 2⟩, 7, PacketType.MsgFragment ⟨0, 2, 1, 65 :: List.replicate 127 0⟩⟩

/-- A complete single-fragment message for client 10 with content byte 65. -/
def oneFragPacketVia99 : Packet :=
  ⟨⟨[5, 99, 10], 2⟩, 7, PacketType.MsgFragment ⟨0, 1, 1, 65 :: List.replicate 127 0⟩⟩

def oneMsgClient : Message Unit := ⟨5, 10, 7, ()⟩

/-- Deserializer recognising exactly the byte 65 payload. -/
def oneMsgClientDeser : List Nat → Option (Message Unit) :=
  fun b => if b = [65] then some oneMsgClient else none

/-- Server 2 with client 1 behind drone 3 and a stored route `2 → 3 → 1`. -/
def server2Routed : HostState :=
  ⟨2,
   ⟨⟨[(1, ⟨1, NodeType.Client ApplicationType.Chat⟩),
      (2, ⟨2, NodeType.Server ApplicationType.Chat⟩),
      (3, ⟨3, NodeType.Drone DroneInfo.new⟩)],
     [(1, 3), (3, 2)]⟩,
    2, [⟨[2, 3, 1]⟩], 0⟩,
   Assembler.new, Disassembler.new, [3]⟩

/-- A complete single-fragment request for server 2, routed `1 → 3 → 2`. -/
def oneFragPacketVia3 : Packet :=
  ⟨⟨[1, 3, 2], 2⟩, 11, PacketType.MsgFragment ⟨0, 1, 1, 65 :: List.replicate 127 0⟩⟩

def oneMsgServer : Message Unit := ⟨1, 2, 11, ()⟩

def oneMsgServerDeser : List Nat → Option (Message Unit) :=
  fun b => if b = [65] then some oneMsgServer else none

/-- Server 2 with a second server 7 behind drone 3 and a stored route
`2 → 3 → 7`. -/
def server2Peer7 : HostState :=
  ⟨2,
   ⟨⟨[(2, ⟨2, NodeType.Server ApplicationType.Chat⟩),
      (3, ⟨3, NodeType.Drone DroneInfo.new⟩),
      (7, ⟨7, NodeType.Server ApplicationType.Chat⟩)],
     [(2, 3), (3, 7)]⟩,
    2, [⟨[2, 3, 7]⟩], 0⟩,
   Assembler.new, Disassembler.new, [3]⟩

/-- The nack `UnexpectedRecipient(7)` reported back through drone 3. -/
def unexpectedNackPacket : Packet :=
  ⟨⟨[3, 2], 1⟩, 9, PacketType.Nack ⟨0, NackType.UnexpectedRecipient 7⟩⟩

/-- A router with three equal-cost stored routes, two of them to
destination 2 (the graph is empty, so every hop reads the default host
cost 0). -/
def router3Ties : SourceRouter :=
  ⟨⟨[], []⟩, 1, [⟨[1, 4, 2]⟩, ⟨[1, 5, 2]⟩, ⟨[1, 6, 3]⟩], 0⟩

/-- A router holding one stored route `1 → 3 → 2`. -/
def router5Edge : SourceRouter := ⟨⟨[], []⟩, 1, [⟨[1, 3, 2]⟩], 0⟩

/-- Client 1, drone 2, server 3 in a chain. -/
def router7Chain : SourceRouter :=
  ⟨⟨[(1, ⟨1, NodeType.Client ApplicationType.Unknown⟩),
     (2, ⟨2, NodeType.Drone DroneInfo.new⟩),
     (3, ⟨3, NodeType.Server ApplicationType.Unknown⟩)],
    [(1, 2), (2, 3)]⟩,
   1, [], 0⟩

/-- Twenty-five observations, all forwarded: the observed drop ratio is 0. -/
def drone25Forwarded : DroneInfo :=
  ⟨List.replicate 25 FragmentDelivery.Forwarded⟩

/-- Twenty-five observations, all dropped. -/
def drone25Dropped : DroneInfo :=
  ⟨List.replicate 25 FragmentDelivery.Dropped⟩

/-- The nack `UnexpectedRecipient(5)` reported to client 10 through
drone 99. -/
def unexpectedNackToClient : Packet :=
  ⟨⟨[99, 10], 1⟩, 8, PacketType.Nack ⟨0, NackType.UnexpectedRecipient 5⟩⟩

/-- Client 10's router after the generic graph update for
`unexpectedNackToClient`. -/
def client10NackRouter : SourceRouter :=
  (client10.router.update_graph unexpectedNackToClient).getD client10.router

/-- Server 2's router after the generic graph update for
`unexpectedNackPacket`. -/
def server2Peer7NackRouter : SourceRouter :=
  (server2Peer7.router.update_graph unexpectedNackPacket).getD server2Peer7.router

/-- A response serializer producing no bytes, so the response disassembles
into zero fragments. -/
def emptySer : Message Unit → List Nat := fun _ => []

/-- Fragment 1 of 2 with content byte 65. -/
def fragHalf65 : Fragment := ⟨0, 2, 1, 65 :: List.replicate 127 0⟩

/-- A complete single fragment with content byte 65. -/
def fragFull65 : Fragment := ⟨0, 1, 1, 65 :: List.replicate 127 0⟩

/-- An incomplete (1 of 2) inbound fragment for server 2, routed
`1 → 3 → 2`. -/
def fragPacketVia3Incomplete : Packet :=
  ⟨⟨[1, 3, 2], 2⟩, 11, PacketType.MsgFragment fragHalf65⟩

/-- Client 10's router after the generic graph update for
`fragPacketVia99` (the same update as for `oneFragPacketVia99`). -/
def client10FragRouter : SourceRouter :=
  (client10.router.update_graph fragPacketVia99).getD client10.router

/-- Default host triple used to project server run results. -/
def hostTripleDefault : HostState × List (Nat × Packet) × List HostEvent :=
  (server2, [], [])

/-- Default client quadruple used to project client run results. -/
def clientQuadDefault :
    HostState × List (Nat × Packet) × List HostEvent × List (Message Unit) :=
  (client10, [], [], [])

/-- The ack client 10 issues for session 7 along its stored route. -/
def ackToSrvPkt : Packet := ⟨⟨[10, 42, 5], 1⟩, 7, PacketType.Ack ⟨0⟩⟩

/-! ## Theorems -/

/-! ### C1: codec round-trip -/

theorem composeBytes_of_valid (frags : List Fragment)
    (h : ∀ f ∈ frags, utf8Valid (f.data.take f.length) = true) :
    composeBytes frags = some (frags.map fun f => f.data.take f.length).flatten := by
  induction frags with
  | nil => rfl
  | cons f rest ih =>
    have hf := h f (List.mem_cons_self f rest)
    have hrest := ih fun g hg => h g (List.mem_cons_of_mem f hg)
    simp [composeBytes, hf, hrest]

theorem fragment_trim (bytes : List Nat) (i : Nat) :
    ((fragmentSlice bytes i ++
        List.replicate (FRAGMENT_DSIZE - (fragmentSlice bytes i).length) 0).take
      (fragmentSlice bytes i).length) = fragmentSlice bytes i := by
  rw [List.take_left]

theorem slices_flatten (bytes : List Nat) (n : Nat) :
    ((List.range n).map (fragmentSlice bytes)).flatten =
      bytes.take (n * FRAGMENT_DSIZE) := by
  induction n with
  | zero => simp
  | succ n ih =>
    rw [List.range_succ, List.map_append, List.flatten_append, ih]
    simp only [List.map_cons, List.map_nil, List.flatten_cons, List.flatten_nil,
      List.append_nil, fragmentSlice]
    rw [Nat.succ_mul, List.take_add]

theorem length_le_total_mul (len : Nat) :
    len ≤ totalFragments len * FRAGMENT_DSIZE := by
  simp only [totalFragments, FRAGMENT_DSIZE]
  split <;> omega

theorem composeBytes_fragmentsOfBytes (bytes : List Nat)
    (hvalid : ∀ f ∈ fragmentsOfBytes bytes, utf8Valid (f.data.take f.length) = true) :
    composeBytes (fragmentsOfBytes bytes) = some bytes := by
  rw [composeBytes_of_valid _ hvalid]
  congr 1
  have hmap : (fragmentsOfBytes bytes).map (fun f => f.data.take f.length) =
      (List.range (totalFragments bytes.length)).map (fragmentSlice bytes) := by
    simp only [fragmentsOfBytes, List.map_map]
    refine List.map_congr_left fun i _ => ?_
    exact fragment_trim bytes i
  rw [hmap, slices_flatten]
  exact List.take_of_length_le (length_le_total_mul bytes.length)

/-- Claim C1 (amended): for every well-formed message (one that round-trips
through the serializer) whose fragment chunks are each valid UTF-8 on their
own — in particular every message with an ASCII serialization — composing
the fragments produced by `decompose_message` yields `Ok` of the original
message.  The extra UTF-8 hypothesis is forced by the per-chunk
`from_utf8(..).unwrap()` in `compose_message` (see the counterexample). -/
theorem codec_roundtrip {M : Type} (ser : M → List Nat)
    (deser : List Nat → Option M) (m : M)
    (hround : deser (ser m) = some m)
    (hvalid : ∀ f ∈ decomposeMessage ser m, utf8Valid (f.data.take f.length) = true) :
    composeMessage deser (decomposeMessage ser m) = ComposeOut.ok m := by
  unfold composeMessage decomposeMessage
  rw [composeBytes_fragmentsOfBytes _ hvalid]
  simp only [hround]

/-- Witness for C1: a concrete ASCII codec on `Unit`. -/
theorem codec_roundtrip_witness :
    asciiDeser (asciiSer ()) = some () ∧
    (∀ f ∈ decomposeMessage asciiSer (), utf8Valid (f.data.take f.length) = true) ∧
    composeMessage asciiDeser (decomposeMessage asciiSer ()) = ComposeOut.ok () :=
  ⟨by decide, by decide, codec_roundtrip asciiSer asciiDeser () (by decide) (by decide)⟩

set_option maxRecDepth 4000 in
/-- Counterexample for C1 as stated: a well-formed message (its codec
round-trips) whose 129-byte serialization ends with a two-byte UTF-8
character astride the 128-byte fragment boundary; composing its own
fragments panics in `from_utf8(..).unwrap()` instead of returning `Ok`. -/
theorem codec_roundtrip_counterexample :
    straddleDeser (straddleSer ()) = some () ∧
    composeMessage straddleDeser (decomposeMessage straddleSer ()) =
      ComposeOut.panicked := by
  constructor
  · decide
  · decide

/-! ### C2: panic reachable from a well-formed packet -/

set_option maxRecDepth 4000 in
/-- Claim C2 evaluated at the failing input: a structurally well-formed
single-fragment packet whose one data byte `0xFF` is not UTF-8 drives
`Server::handle_packet` into the `from_utf8(..).unwrap()` panic inside
`compose_message` (`none` is the panic in this model), contradicting the
no-panic claim.  The spec (sections 4.F and 7: reassembly errors do not
crash the host) and the handled `Err(_)` branch right after the unwrap
show the intent; the unwrap is the slip. -/
theorem server_panic_on_invalid_utf8 :
    handleServerPacket unitMsgDeserNone unitMsgSer unitHandleRequest
      costLowHistory server2 badUtf8Packet = none := by
  rfl

/-! ### C3: get_best_route selection and round-robin tie-breaking -/

theorem takeWhile_eq_filter_mono {α : Type} (p : α → Bool) (le : α → α → Prop)
    (hp : ∀ a b, le a b → p b = true → p a = true) :
    ∀ l : List α, l.Pairwise le → l.takeWhile p = l.filter p := by
  intro l hl
  induction l with
  | nil => rfl
  | cons a tl ih =>
    rcases List.pairwise_cons.mp hl with ⟨ha, htl⟩
    cases hpa : p a with
    | false =>
      have hall : ∀ b ∈ tl, p b = false := by
        intro b hb
        cases hpb : p b with
        | false => rfl
        | true => exact absurd (hp a b (ha b hb) hpb) (by simp [hpa])
      simp [List.takeWhile_cons, List.filter_cons, hpa, List.filter_eq_nil_iff]
      intro b hb
      simpa using hall b hb
    | true =>
      simp [List.takeWhile_cons, List.filter_cons, hpa, ih htl]

theorem takeWhile_eq_self_of_all {α : Type} (p : α → Bool) :
    ∀ l : List α, (∀ x ∈ l, p x = true) → l.takeWhile p = l := by
  intro l hl
  induction l with
  | nil => rfl
  | cons a tl ih =>
    simp [List.takeWhile_cons, hl a (List.mem_cons_self a tl),
      ih fun x hx => hl x (List.mem_cons_of_mem a hx)]

theorem get_best_route_routes_unchanged (costOf : Node → ℚ) (s : SourceRouter)
    (dst : Nat) : ((s.get_best_route costOf dst).2).routes = s.routes := by
  unfold SourceRouter.get_best_route
  dsimp only
  split <;> rfl

/-- One `get_best_route` call on a state whose routes to `dst` all share one
cost: the answer is the stored route at index `request_count mod k`, and the
counter advances by one. -/
theorem get_best_route_equal_cost (costOf : Node → ℚ) (s : SourceRouter)
    (dst : Nat) (c : ℚ)
    (hcost : ∀ r ∈ s.routes.filter fun route => route.destination = some dst,
      r.cost s.graph costOf = c)
    (hne : (s.routes.filter fun route => route.destination = some dst) ≠ []) :
    s.get_best_route costOf dst =
      (((s.routes.filter fun route => route.destination = some dst).get?
          (s.request_count %
            (s.routes.filter fun route => route.destination = some dst).length)).map
        Route.to_source_routing_header,
       { s with request_count := (s.request_count + 1) % 2 ^ 64 }) := by
  rcases hrs : s.routes.filter fun route => route.destination = some dst with _ | ⟨r0, rest⟩
  · exact absurd hrs hne
  · have hall : ∀ r ∈ r0 :: rest,
        (decide (r.cost s.graph costOf - r0.cost s.graph costOf < f32Epsilon)) = true := by
      intro r hrmem
      have h0 : r0.cost s.graph costOf = c := by
        refine hcost r0 ?_
        rw [hrs]
        exact List.mem_cons_self r0 rest
      have h1 : r.cost s.graph costOf = c := by
        refine hcost r ?_
        rw [hrs]
        exact hrmem
      rw [h0, h1]
      simp only [decide_eq_true_eq, sub_self, f32Epsilon]
      norm_num
    unfold SourceRouter.get_best_route
    rw [hrs]
    simp only [List.head?_cons]
    rw [takeWhile_eq_self_of_all _ _ hall]

theorem getBestRouteIter_equal_cost (costOf : Node → ℚ) (dst : Nat) (k : Nat)
    (hk : 0 < k) (c : ℚ) :
    ∀ (n : Nat) (s : SourceRouter),
      (∀ r ∈ s.routes.filter fun route => route.destination = some dst,
        r.cost s.graph costOf = c) →
      (s.routes.filter fun route => route.destination = some dst).length = k →
      s.request_count + n ≤ 2 ^ 64 →
      getBestRouteIter costOf dst n s =
        (List.range n).map fun i =>
          ((s.routes.filter fun route => route.destination = some dst).get?
            ((s.request_count + i) % k)).map Route.to_source_routing_header := by
  intro n
  induction n with
  | zero => intro s _ _ _; rfl
  | succ n ih =>
    intro s hcost hlen hrc
    have hne : (s.routes.filter fun route => route.destination = some dst) ≠ [] := by
      intro h
      rw [h] at hlen
      simp only [List.length_nil] at hlen
      omega
    have hstep := get_best_route_equal_cost costOf s dst c hcost hne
    simp only [getBestRouteIter]
    rw [hstep]
    dsimp only
    rw [ih { s with request_count := (s.request_count + 1) % 2 ^ 64 } hcost hlen
      (by dsimp only; omega)]
    dsimp only
    rw [List.range_succ_eq_map, List.map_cons, List.map_map, hlen, Nat.add_zero]
    congr 1
    refine List.map_congr_left fun i hi => ?_
    have hin : i < n := List.mem_range.mp hi
    have h64 : s.request_count + 1 < 2 ^ 64 := by omega
    simp only [Function.comp_apply]
    rw [Nat.mod_eq_of_lt h64]
    have harith : s.request_count + 1 + i = s.request_count + (i + 1) := by omega
    rw [harith]

/-- Claim C3: `get_best_route` (a) answers `none`, leaving the state
untouched, exactly when no stored route ends at `dst`; (b) on a
cost-ascending stored order it restricts to the set of routes whose cost is
within `f32::EPSILON` of the minimum (the `take_while` prefix is that whole
set), answers the one at index `request_count mod k` of it, and increments
`request_count` with wraparound, always answering `some`; and (c) on a
table whose routes to `d` are exactly `k` equal-cost ones, `k` consecutive
calls answer each of the `k` routes exactly once. -/
theorem get_best_route_spec (costOf : Node → ℚ) (s : SourceRouter) (dst : Nat) :
    ((s.routes.filter fun route => route.destination = some dst) = [] →
      s.get_best_route costOf dst = (none, s)) ∧
    (∀ r0 rest,
      (s.routes.filter fun route => route.destination = some dst) = r0 :: rest →
      (r0 :: rest).Pairwise
        (fun a b => a.cost s.graph costOf ≤ b.cost s.graph costOf) →
      (∀ r ∈ r0 :: rest, r0.cost s.graph costOf ≤ r.cost s.graph costOf) ∧
      ((r0 :: rest).filter fun r =>
        r.cost s.graph costOf - r0.cost s.graph costOf < f32Epsilon) ≠ [] ∧
      s.get_best_route costOf dst =
        ((((r0 :: rest).filter fun r =>
            r.cost s.graph costOf - r0.cost s.graph costOf < f32Epsilon).get?
          (s.request_count %
            ((r0 :: rest).filter fun r =>
              r.cost s.graph costOf - r0.cost s.graph costOf < f32Epsilon).length)).map
          Route.to_source_routing_header,
         { s with request_count := (s.request_count + 1) % 2 ^ 64 }) ∧
      ((s.get_best_route costOf dst).1).isSome = true) ∧
    (∀ k c, (s.routes.filter fun route => route.destination = some dst).length = k →
      0 < k →
      (∀ r ∈ s.routes.filter fun route => route.destination = some dst,
        r.cost s.graph costOf = c) →
      s.request_count + k ≤ 2 ^ 64 →
      List.Perm (getBestRouteIter costOf dst k s)
        ((s.routes.filter fun route => route.destination = some dst).map
          fun r => some r.to_source_routing_header)) := by
  refine ⟨?_, ?_, ?_⟩
  · intro h
    unfold SourceRouter.get_best_route
    rw [h]
    rfl
  · intro r0 rest hfil hsorted
    have hmin : ∀ r ∈ r0 :: rest, r0.cost s.graph costOf ≤ r.cost s.graph costOf := by
      intro r hr
      rcases List.mem_cons.mp hr with h | h
      · rw [h]
      · exact (List.pairwise_cons.mp hsorted).1 r h
    have hr0 : (decide (r0.cost s.graph costOf - r0.cost s.graph costOf < f32Epsilon))
        = true := by
      simp only [decide_eq_true_eq, sub_self, f32Epsilon]
      norm_num
    have hne : ((r0 :: rest).filter fun r =>
        r.cost s.graph costOf - r0.cost s.graph costOf < f32Epsilon) ≠ [] := by
      intro h
      have : r0 ∈ (r0 :: rest).filter fun r =>
          r.cost s.graph costOf - r0.cost s.graph costOf < f32Epsilon :=
        List.mem_filter.mpr ⟨List.mem_cons_self r0 rest, hr0⟩
      rw [h] at this
      exact absurd this (List.not_mem_nil r0)
    have htf : (r0 :: rest).takeWhile
        (fun r => decide (r.cost s.graph costOf - r0.cost s.graph costOf < f32Epsilon)) =
        (r0 :: rest).filter
        (fun r => decide (r.cost s.graph costOf - r0.cost s.graph costOf < f32Epsilon)) :=
      takeWhile_eq_filter_mono _
        (fun a b => a.cost s.graph costOf ≤ b.cost s.graph costOf)
        (fun a b hab hb => by
          simp only [decide_eq_true_eq] at *
          linarith)
        (r0 :: rest) hsorted
    have heq : s.get_best_route costOf dst =
        ((((r0 :: rest).filter fun r =>
            r.cost s.graph costOf - r0.cost s.graph costOf < f32Epsilon).get?
          (s.request_count %
            ((r0 :: rest).filter fun r =>
              r.cost s.graph costOf - r0.cost s.graph costOf < f32Epsilon).length)).map
          Route.to_source_routing_header,
         { s with request_count := (s.request_count + 1) % 2 ^ 64 }) := by
      unfold SourceRouter.get_best_route
      rw [hfil]
      simp only [List.head?_cons]
      rw [htf]
    refine ⟨hmin, hne, heq, ?_⟩
    rw [heq]
    simp only []
    have hlt : s.request_count %
        ((r0 :: rest).filter fun r =>
          r.cost s.graph costOf - r0.cost s.graph costOf < f32Epsilon).length <
        ((r0 :: rest).filter fun r =>
          r.cost s.graph costOf - r0.cost s.graph costOf < f32Epsilon).length :=
      Nat.mod_lt _ (List.length_pos.mpr hne)
    rw [List.get?_eq_getElem?, List.getElem?_eq_getElem hlt]
    rfl
  · intro k c hlen hk hcost hrc
    rw [getBestRouteIter_equal_cost costOf dst k hk c k s hcost hlen hrc]
    have hklen : (s.routes.filter fun route => route.destination = some dst).length = k :=
      hlen
    have hform : ((List.range k).map fun i =>
        ((s.routes.filter fun route => route.destination = some dst).get?
          ((s.request_count + i) % k)).map Route.to_source_routing_header) =
        ((s.routes.filter fun route => route.destination = some dst).rotate
          (s.request_count % k)).map fun r => some r.to_source_routing_header := by
      apply List.ext_getElem
      · simp [hklen]
      · intro i h1 h2
        have hik : i < k := by simpa using h1
        have hmod : (s.request_count + i) % k < k := Nat.mod_lt _ hk
        rw [List.getElem_map, List.getElem_range, List.getElem_map,
          List.get?_eq_getElem?, List.getElem?_eq_getElem (by omega)]
        have hrot := List.get_rotate
          (s.routes.filter fun route => route.destination = some dst)
          (s.request_count % k)
          ⟨i, by simpa [List.length_rotate, hklen] using hik⟩
        simp only [List.get_eq_getElem] at hrot
        rw [hrot]
        simp only [Option.map_some']
        have hidx : (s.request_count + i) % k =
            (i + s.request_count % k) %
              (s.routes.filter fun route => route.destination = some dst).length := by
          rw [hklen, Nat.add_comm i (s.request_count % k)]
          exact (Nat.mod_add_mod _ _ _).symm
        simp only [hidx]
    rw [hform]
    exact List.Perm.map _ (List.rotate_perm _ _)

/-- Witness for C3: a router with two equal-cost stored routes to
destination 2 and one to destination 3; destination 11 has no route. -/
theorem get_best_route_spec_witness :
    (router3Ties.get_best_route costLowHistory 11 = (none, router3Ties)) ∧
    ((router3Ties.get_best_route costLowHistory 2).1.isSome = true) ∧
    List.Perm (getBestRouteIter costLowHistory 2 2 router3Ties)
      ((router3Ties.routes.filter fun route => route.destination = some 2).map
        fun r => some r.to_source_routing_header) := by
  have hc : ∀ r : Route, r.cost router3Ties.graph costLowHistory = 0 := fun r => by
    simp [Route.cost, router3Ties, Graph.getNodeD, AList.lookup, costLowHistory]
  have h := get_best_route_spec costLowHistory router3Ties 2
  have h11 := get_best_route_spec costLowHistory router3Ties 11
  refine ⟨h11.1 (by decide), ?_, ?_⟩
  · exact (h.2.1 ⟨[1, 4, 2]⟩ [⟨[1, 5, 2]⟩] (by decide)
      (by simp [List.pairwise_cons, hc])).2.2.2
  · exact h.2.2 2 0 (by decide) (by decide) (fun r _ => hc r) (by norm_num [router3Ties])

/-! ### C5: route purging on edge removal -/

/-- Claim C5 (amended): `remove_edge(from, to)` purges exactly the stored
routes containing the directed pair `(from, to)` as consecutive hops in
that orientation — a route traversing only the reverse orientation
`(to, from)` is retained (see the counterexample) — while the graph edge
itself is removed in both orientations. -/
theorem remove_edge_spec (s : SourceRouter) (from_ to_ : Nat) :
    (∀ r ∈ (s.remove_edge from_ to_).routes, r.contains_edge from_ to_ = false) ∧
    (∀ r ∈ s.routes, r.contains_edge from_ to_ = false →
      r ∈ (s.remove_edge from_ to_).routes) ∧
    (s.remove_edge from_ to_).graph.hasEdge from_ to_ = false := by
  refine ⟨?_, ?_, ?_⟩
  · intro r hr
    have := (List.mem_filter.mp hr).2
    simpa using this
  · intro r hr hce
    exact List.mem_filter.mpr ⟨hr, by simpa using hce⟩
  · simp only [SourceRouter.remove_edge, Graph.remove_undirected_edge, Graph.hasEdge]
    rw [List.any_eq_false]
    intro e he
    have := (List.mem_filter.mp he).2
    simpa using this

/-- Witness for C5: on a router storing the single route `1 → 3 → 2`,
removing edge `(2, 3)` keeps that route (it only traverses `3 → 2`) and
removes the graph edge. -/
theorem remove_edge_spec_witness :
    (⟨[1, 3, 2]⟩ : Route) ∈ (router5Edge.remove_edge 2 3).routes ∧
    Route.contains_edge ⟨[1, 3, 2]⟩ 2 3 = false ∧
    (router5Edge.remove_edge 2 3).graph.hasEdge 2 3 = false :=
  ⟨(remove_edge_spec router5Edge 2 3).2.1 ⟨[1, 3, 2]⟩ (by decide) (by decide),
   (remove_edge_spec router5Edge 2 3).1 ⟨[1, 3, 2]⟩
     ((remove_edge_spec router5Edge 2 3).2.1 ⟨[1, 3, 2]⟩ (by decide) (by decide)),
   (remove_edge_spec router5Edge 2 3).2.2⟩

/-- Counterexample for C5 as stated: after `remove_edge(2, 3)` the stored
route `1 → 3 → 2` survives although it contains the removed edge as the
consecutive hops `3, 2` (the reverse orientation) — `Route::contains_edge`
checks only the `[from, to]` window. -/
theorem remove_edge_counterexample :
    (router5Edge.remove_edge 2 3).routes = [⟨[1, 3, 2]⟩] ∧
    Route.contains_edge ⟨[1, 3, 2]⟩ 3 2 = true := by
  constructor
  · decide
  · decide

/-! ### C8: the PDR cost formula -/

theorem calculate_pdr_nonneg (d : DroneInfo) : 0 ≤ d.calculate_pdr := by
  unfold DroneInfo.calculate_pdr
  split
  · norm_num
  · positivity

theorem calculate_pdr_le_one (d : DroneInfo) : d.calculate_pdr ≤ 1 := by
  unfold DroneInfo.calculate_pdr
  split
  · norm_num
  · rename_i hlen
    have hpos : 0 < d.latest_deliveries.length := by
      simp only [MEMORY_SIZE] at hlen
      omega
    rw [div_le_one (by exact_mod_cast hpos)]
    exact_mod_cast List.length_filter_le _ _

theorem one_sub_min_pos (p : ℝ) : 0 < 1 - min p 0.9999 := by
  have := min_le_right p (0.9999 : ℝ)
  linarith

theorem droneCostR_mono {q1 q2 : ℚ} (h : q1 ≤ q2) :
    droneCostR q1 ≤ droneCostR q2 := by
  unfold droneCostR
  have h1 := one_sub_min_pos (q1 : ℝ)
  have h2 := one_sub_min_pos (q2 : ℝ)
  have hm : min (q1 : ℝ) 0.9999 ≤ min (q2 : ℝ) 0.9999 :=
    min_le_min (by exact_mod_cast h) le_rfl
  have hrec : 1 / (1 - min (q1 : ℝ) 0.9999) ≤ 1 / (1 - min (q2 : ℝ) 0.9999) :=
    one_div_le_one_div_of_le h2 (by linarith)
  have hlog := Real.logb_le_logb_of_le (by norm_num : (1 : ℝ) < 2)
    (by positivity) hrec
  nlinarith

theorem droneCostR_ge_alpha {q : ℚ} (h0 : 0 ≤ q) : (0.1 : ℝ) ≤ droneCostR q := by
  unfold droneCostR
  have h1 := one_sub_min_pos (q : ℝ)
  have hm0 : 0 ≤ min (q : ℝ) 0.9999 := le_min (by exact_mod_cast h0) (by norm_num)
  have hge : 1 ≤ 1 / (1 - min (q : ℝ) 0.9999) := by
    rw [le_div_iff₀ h1]
    linarith
  have hlog := Real.logb_nonneg (by norm_num : (1 : ℝ) < 2) hge
  nlinarith

theorem droneCostR_gt_alpha {q : ℚ} (h0 : 0 < q) : (0.1 : ℝ) < droneCostR q := by
  unfold droneCostR
  have h1 := one_sub_min_pos (q : ℝ)
  have hm0 : 0 < min (q : ℝ) 0.9999 := lt_min (by exact_mod_cast h0) (by norm_num)
  have hgt : 1 < 1 / (1 - min (q : ℝ) 0.9999) := by
    rw [lt_div_iff₀ h1]
    linarith
  have hlog := Real.logb_pos (by norm_num : (1 : ℝ) < 2) hgt
  nlinarith

/-- Claim C8 (amended): for drones with at least `MEMORY_SIZE / 10 = 25`
observations, `NodeType::cost` is a monotonically non-decreasing function
of the observed drop ratio, and it is at least `ALPHA = 0.1` — strictly
above `ALPHA` exactly when the observed drop ratio is positive; at drop
ratio 0 the cost equals `ALPHA` (see the counterexample), so the claimed
strict bound fails. -/
theorem drone_cost_spec :
    (∀ d1 d2 : DroneInfo,
      MEMORY_SIZE / 10 ≤ d1.latest_deliveries.length →
      MEMORY_SIZE / 10 ≤ d2.latest_deliveries.length →
      d1.calculate_pdr ≤ d2.calculate_pdr →
      (NodeType.Drone d1).costR ≤ (NodeType.Drone d2).costR) ∧
    (∀ d : DroneInfo, MEMORY_SIZE / 10 ≤ d.latest_deliveries.length →
      (0.1 : ℝ) ≤ (NodeType.Drone d).costR) ∧
    (∀ d : DroneInfo, MEMORY_SIZE / 10 ≤ d.latest_deliveries.length →
      0 < d.calculate_pdr → (0.1 : ℝ) < (NodeType.Drone d).costR) :=
  ⟨fun _ _ _ _ h => droneCostR_mono h,
   fun d _ => droneCostR_ge_alpha (calculate_pdr_nonneg d),
   fun _ _ h => droneCostR_gt_alpha h⟩

theorem drone25Forwarded_pdr : drone25Forwarded.calculate_pdr = 0 := by
  unfold DroneInfo.calculate_pdr
  rw [if_neg (by decide)]
  rw [show (drone25Forwarded.latest_deliveries.filter
    (· == FragmentDelivery.Dropped)).length = 0 from by decide]
  norm_num

theorem drone25Dropped_pdr : drone25Dropped.calculate_pdr = 1 := by
  unfold DroneInfo.calculate_pdr
  rw [if_neg (by decide)]
  rw [show (drone25Dropped.latest_deliveries.filter
    (· == FragmentDelivery.Dropped)).length = 25 from by decide]
  rw [show drone25Dropped.latest_deliveries.length = 25 from by decide]
  norm_num

/-- Witness for C8: twenty-five all-forwarded observations against
twenty-five all-dropped ones. -/
theorem drone_cost_spec_witness :
    (NodeType.Drone drone25Forwarded).costR ≤ (NodeType.Drone drone25Dropped).costR ∧
    (0.1 : ℝ) ≤ (NodeType.Drone drone25Forwarded).costR ∧
    (0.1 : ℝ) < (NodeType.Drone drone25Dropped).costR :=
  ⟨drone_cost_spec.1 drone25Forwarded drone25Dropped (by decide) (by decide)
      (by rw [drone25Forwarded_pdr, drone25Dropped_pdr]; norm_num),
   drone_cost_spec.2.1 drone25Forwarded (by decide),
   drone_cost_spec.2.2 drone25Dropped (by decide)
      (by rw [drone25Dropped_pdr]; norm_num)⟩

/-- Counterexample for C8 as stated: a drone with twenty-five observations,
none dropped, has cost exactly `ALPHA = 0.1`, not strictly above it. -/
theorem drone_cost_counterexample :
    MEMORY_SIZE / 10 ≤ drone25Forwarded.latest_deliveries.length ∧
    ¬ (0.1 : ℝ) < (NodeType.Drone drone25Forwarded).costR := by
  refine ⟨by decide, ?_⟩
  show ¬ (0.1 : ℝ) < droneCostR drone25Forwarded.calculate_pdr
  rw [drone25Forwarded_pdr]
  unfold droneCostR
  rw [show ((0 : ℚ) : ℝ) = 0 by norm_num]
  rw [min_eq_left (by norm_num)]
  simp [Real.logb_one]

/-! ### C9: session-id minting -/

theorem shiftLeft_lor_eq_add {a b n : Nat} (hb : b < 2 ^ n) :
    (a <<< n) ||| b = 2 ^ n * a + b := by
  apply Nat.eq_of_testBit_eq
  intro j
  rw [Nat.testBit_lor, Nat.testBit_shiftLeft, Nat.testBit_mul_pow_two_add a hb j]
  by_cases hj : j < n
  · have hjn : ¬ j ≥ n := by omega
    simp [hj, hjn]
  · have hbj : b.testBit j = false := by
      apply Nat.testBit_lt_two_pow
      exact lt_of_lt_of_le hb (Nat.pow_le_pow_right (by norm_num) (by omega))
    have hjn : j ≥ n := by omega
    simp [hj, hjn, hbj]

theorem mintNth_shift (id : Nat) : ∀ (n : Nat) (d : Disassembler),
    d.last_session_id + n < 2 ^ 64 →
    mintNth id n d =
      Disassembler.transform_session_id (d.last_session_id + n) id := by
  intro n
  induction n with
  | zero =>
    intro d _
    simp [mintNth, clientNewSessionId, Disassembler.new_session_id]
  | succ n ih =>
    intro d hlt
    show mintNth id n (clientNewSessionId d id).2 = _
    have hstate : (clientNewSessionId d id).2.last_session_id =
        d.last_session_id + 1 := by
      simp [clientNewSessionId, Disassembler.new_session_id]
      omega
    have hbound : (clientNewSessionId d id).2.last_session_id + n < 2 ^ 64 := by
      rw [hstate]
      omega
    rw [ih (clientNewSessionId d id).2 hbound, hstate]
    congr 1
    omega

/-- Claim C9: with the per-host counter below `2 ^ 56`, any two session ids
minted by host `h` differ, every minted id carries `h` in its high byte,
and the low 56 bits are strictly increasing in mint order. -/
theorem session_id_spec (h i j : Nat) (hh : h < 256) (hij : i < j)
    (hj : j < 2 ^ 56) :
    mintNth h i Disassembler.new ≠ mintNth h j Disassembler.new ∧
    mintNth h i Disassembler.new >>> 56 = h ∧
    mintNth h j Disassembler.new >>> 56 = h ∧
    mintNth h i Disassembler.new % 2 ^ 56 <
      mintNth h j Disassembler.new % 2 ^ 56 := by
  have hi : i < 2 ^ 56 := lt_trans hij hj
  have h64 : (2 : Nat) ^ 56 < 2 ^ 64 := by norm_num
  have hmi : mintNth h i Disassembler.new = 2 ^ 56 * h + i := by
    rw [mintNth_shift h i Disassembler.new (by simpa [Disassembler.new] using by omega)]
    show (h <<< 56) ||| (0 + i) = _
    rw [Nat.zero_add, shiftLeft_lor_eq_add hi]
  have hmj : mintNth h j Disassembler.new = 2 ^ 56 * h + j := by
    rw [mintNth_shift h j Disassembler.new (by simpa [Disassembler.new] using by omega)]
    show (h <<< 56) ||| (0 + j) = _
    rw [Nat.zero_add, shiftLeft_lor_eq_add hj]
  have hdiv : ∀ c, c < 2 ^ 56 → (2 ^ 56 * h + c) >>> 56 = h := by
    intro c hc
    rw [Nat.shiftRight_eq_div_pow, Nat.mul_add_div (by norm_num),
      Nat.div_eq_of_lt hc, Nat.add_zero]
  have hmod : ∀ c, c < 2 ^ 56 → (2 ^ 56 * h + c) % 2 ^ 56 = c := by
    intro c hc
    rw [Nat.mul_add_mod, Nat.mod_eq_of_lt hc]
  refine ⟨?_, ?_, ?_, ?_⟩
  · rw [hmi, hmj]
    omega
  · rw [hmi]
    exact hdiv i hi
  · rw [hmj]
    exact hdiv j hj
  · rw [hmi, hmj, hmod i hi, hmod j hj]
    exact hij

/-- Witness for C9: host 7, first and second minted ids. -/
theorem session_id_spec_witness :
    mintNth 7 0 Disassembler.new ≠ mintNth 7 1 Disassembler.new ∧
    mintNth 7 0 Disassembler.new >>> 56 = 7 ∧
    mintNth 7 1 Disassembler.new >>> 56 = 7 ∧
    mintNth 7 0 Disassembler.new % 2 ^ 56 < mintNth 7 1 Disassembler.new % 2 ^ 56 :=
  session_id_spec 7 0 1 (by norm_num) (by norm_num) (by norm_num)

/-! ### C10: disassembler key alignment -/

theorem AList.lookup_insert_self {α : Type} (k : Nat) (v : α)
    (l : List (Nat × α)) : AList.lookup k (AList.insert k v l) = some v := by
  induction l with
  | nil => simp [AList.insert, AList.lookup]
  | cons e t ih =>
    by_cases h1 : k < e.1
    · simp [AList.insert, h1, AList.lookup]
    · by_cases h2 : k = e.1
      · simp [AList.insert, h1, h2, AList.lookup]
      · simp [AList.insert, h1, h2, AList.lookup, ih]

theorem AList.lookup_insert_ne {α : Type} {k j : Nat} (v : α)
    (l : List (Nat × α)) (h : j ≠ k) :
    AList.lookup j (AList.insert k v l) = AList.lookup j l := by
  induction l with
  | nil => simp [AList.insert, AList.lookup, h]
  | cons e t ih =>
    by_cases h1 : k < e.1
    · simp [AList.insert, h1, AList.lookup, h]
    · by_cases h2 : k = e.1
      · have h3 : j ≠ e.1 := fun hj => h (hj.trans h2.symm)
        simp [AList.insert, h1, h2, AList.lookup, h, h3]
      · simp [AList.insert, h1, h2, AList.lookup, ih]

theorem AList.lookup_erase_ne {α : Type} {k j : Nat} (l : List (Nat × α))
    (h : j ≠ k) : AList.lookup j (AList.erase k l) = AList.lookup j l := by
  induction l with
  | nil => rfl
  | cons e t ih =>
    by_cases h1 : k = e.1
    · have h2 : j ≠ e.1 := fun hj => h (hj.trans h1.symm)
      simp [AList.erase, h1, AList.lookup, h2]
    · simp [AList.erase, h1, AList.lookup, ih]

theorem AList.lookup_eq_none_of_forall {α : Type} (k : Nat)
    (l : List (Nat × α)) (h : ∀ e ∈ l, k ≠ e.1) : AList.lookup k l = none := by
  induction l with
  | nil => rfl
  | cons e t ih =>
    simp [AList.lookup, h e (List.mem_cons_self e t),
      ih fun x hx => h x (List.mem_cons_of_mem e hx)]

theorem AList.lookup_erase_self {α : Type} (k : Nat) (l : List (Nat × α))
    (hwf : List.Pairwise (fun a b => a.1 < b.1) l) :
    AList.lookup k (AList.erase k l) = none := by
  induction l with
  | nil => rfl
  | cons e t ih =>
    rcases List.pairwise_cons.mp hwf with ⟨he, ht⟩
    by_cases h1 : k = e.1
    · simp only [AList.erase, if_pos h1]
      exact AList.lookup_eq_none_of_forall k t fun x hx => by
        have := he x hx
        omega
    · simp [AList.erase, h1, AList.lookup, ih ht]

theorem AList.mem_insert {α : Type} (k : Nat) (v : α) (l : List (Nat × α)) :
    ∀ e ∈ AList.insert k v l, e = (k, v) ∨ e ∈ l := by
  induction l with
  | nil =>
    intro e he
    simp only [AList.insert, List.mem_singleton] at he
    exact Or.inl he
  | cons f t ih =>
    intro e he
    by_cases h1 : k < f.1
    · simp only [AList.insert, if_pos h1, List.mem_cons] at he
      rcases he with h | h | h
      · exact Or.inl h
      · exact Or.inr (List.mem_cons.mpr (Or.inl h))
      · exact Or.inr (List.mem_cons.mpr (Or.inr h))
    · by_cases h2 : k = f.1
      · simp only [AList.insert, if_neg h1, if_pos h2, List.mem_cons] at he
        rcases he with h | h
        · exact Or.inl h
        · exact Or.inr (List.mem_cons.mpr (Or.inr h))
      · simp only [AList.insert, if_neg h1, if_neg h2, List.mem_cons] at he
        rcases he with h | h
        · exact Or.inr (List.mem_cons.mpr (Or.inl h))
        · rcases ih e h with h' | h'
          · exact Or.inl h'
          · exact Or.inr (List.mem_cons.mpr (Or.inr h'))

theorem AList.WF.insert {α : Type} {l : List (Nat × α)}
    (hwf : List.Pairwise (fun a b => a.1 < b.1) l) (k : Nat) (v : α) :
    List.Pairwise (fun a b => a.1 < b.1) (AList.insert k v l) := by
  induction l with
  | nil => simp [AList.insert]
  | cons e t ih =>
    rcases List.pairwise_cons.mp hwf with ⟨he, ht⟩
    by_cases h1 : k < e.1
    · simp only [AList.insert, if_pos h1]
      refine List.pairwise_cons.mpr ⟨?_, hwf⟩
      intro x hx
      rcases List.mem_cons.mp hx with rfl | h
      · exact h1
      · have := he x h
        omega
    · by_cases h2 : k = e.1
      · simp only [AList.insert, if_neg h1, if_pos h2]
        refine List.pairwise_cons.mpr ⟨?_, ht⟩
        intro x hx
        have := he x hx
        omega
      · simp only [AList.insert, if_neg h1, if_neg h2]
        refine List.pairwise_cons.mpr ⟨?_, ih ht⟩
        intro x hx
        rcases AList.mem_insert k v t x hx with h | h
        · rw [h]
          show e.1 < k
          omega
        · exact he x h

theorem AList.erase_sublist {α : Type} (k : Nat) (l : List (Nat × α)) :
    List.Sublist (AList.erase k l) l := by
  induction l with
  | nil => exact List.Sublist.refl []
  | cons e t ih =>
    by_cases h1 : k = e.1
    · simp only [AList.erase, if_pos h1]
      exact List.sublist_cons_self e t
    · simp only [AList.erase, if_neg h1]
      exact List.Sublist.cons₂ e ih

theorem AList.WF.erase {α : Type} {l : List (Nat × α)}
    (hwf : List.Pairwise (fun a b => a.1 < b.1) l) (k : Nat) :
    List.Pairwise (fun a b => a.1 < b.1) (AList.erase k l) :=
  List.Pairwise.sublist (AList.erase_sublist k l) hwf

theorem disassembler_wf_aligned (d : Disassembler)
    (hr : DisassemblerReachable d) :
    d.fragments.WF ∧ d.destinations.WF ∧ keysAligned d := by
  induction hr with
  | init =>
    refine ⟨List.Pairwise.nil, List.Pairwise.nil, fun sid => ?_⟩
    simp [Disassembler.new, AList.lookup]
  | disassembly ser m hd ih =>
    rcases ih with ⟨hf, hdst, hal⟩
    refine ⟨AList.WF.insert hf _ _, AList.WF.insert hdst _ _, fun sid => ?_⟩
    simp only [Disassembler.disassembly]
    by_cases h : sid = m.session_id
    · rw [h, AList.lookup_insert_self, AList.lookup_insert_self]
      simp
    · rw [AList.lookup_insert_ne _ _ h, AList.lookup_insert_ne _ _ h]
      exact hal sid
  | forget_fragment session_id fragment_index hd ih =>
    rcases ih with ⟨hf, hdst, hal⟩
    rename_i d'
    rcases hlk : AList.lookup session_id d'.fragments with _ | frags
    · have hstate : (d'.forget_fragment session_id fragment_index).2 = d' := by
        unfold Disassembler.forget_fragment
        rw [hlk]
      rw [hstate]
      exact ⟨hf, hdst, hal⟩
    · by_cases hemp : (AList.erase fragment_index frags).isEmpty
      · have hstate : (d'.forget_fragment session_id fragment_index).2 =
            { d' with fragments := AList.erase session_id d'.fragments
                      destinations := AList.erase session_id d'.destinations } := by
          unfold Disassembler.forget_fragment
          rw [hlk]
          dsimp only
          rw [if_pos hemp]
        rw [hstate]
        refine ⟨AList.WF.erase hf _, AList.WF.erase hdst _, fun sid => ?_⟩
        by_cases h : sid = session_id
        · rw [h]
          rw [AList.lookup_erase_self _ _ hf, AList.lookup_erase_self _ _ hdst]
          exact Iff.rfl
        · rw [AList.lookup_erase_ne _ h, AList.lookup_erase_ne _ h]
          exact hal sid
      · have hstate : (d'.forget_fragment session_id fragment_index).2 =
            { d' with fragments := AList.insert session_id (AList.erase fragment_index frags) d'.fragments } := by
          unfold Disassembler.forget_fragment
          rw [hlk]
          dsimp only
          rw [if_neg hemp]
        rw [hstate]
        refine ⟨AList.WF.insert hf _ _, hdst, fun sid => ?_⟩
        by_cases h : sid = session_id
        · rw [h, AList.lookup_insert_self]
          have hsome : (AList.lookup session_id d'.fragments).isSome = true := by
            rw [hlk]
            rfl
          have := (hal session_id).mp hsome
          simp [this]
        · rw [AList.lookup_insert_ne _ _ h]
          exact hal sid
  | new_session_id hd ih =>
    exact ih

/-- Claim C10: in every disassembler state reachable through the public
operations, a session id keys `destinations` iff it keys `fragments`;
hence a successful `get_fragment` implies a successful `get_destination`. -/
theorem disassembler_keys_spec (d : Disassembler)
    (hr : DisassemblerReachable d) :
    keysAligned d ∧
    (∀ sid idx, (d.get_fragment sid idx).isSome = true →
      (d.get_destination sid).isSome = true) := by
  have hal := (disassembler_wf_aligned d hr).2.2
  refine ⟨hal, fun sid idx hfi => ?_⟩
  unfold Disassembler.get_fragment at hfi
  unfold Disassembler.get_destination
  rcases hlk : AList.lookup sid d.fragments with _ | frags
  · rw [hlk] at hfi
    simp at hfi
  · exact (hal sid).mp (by rw [hlk]; rfl)

/-- Witness for C10: the state after one `disassembly` from the initial
state. -/
theorem disassembler_keys_spec_witness :
    keysAligned ((Disassembler.new.disassembly unitMsgSer ⟨1, 2, 5, ()⟩).2) ∧
    (∀ sid idx,
      (((Disassembler.new.disassembly unitMsgSer ⟨1, 2, 5, ()⟩).2).get_fragment
        sid idx).isSome = true →
      (((Disassembler.new.disassembly unitMsgSer ⟨1, 2, 5, ()⟩).2).get_destination
        sid).isSome = true) :=
  disassembler_keys_spec _
    (DisassemblerReachable.disassembly unitMsgSer ⟨1, 2, 5, ()⟩
      DisassemblerReachable.init)

/-! ### C7: well-formedness of calculated routes -/

theorem calcLevels_mem (g : Graph) (src : Nat) :
    ∀ n, ∀ r ∈ calcLevels g src n,
      r.hops ≠ [] ∧ r.hops.head? = some src ∧ r.hops.Nodup := by
  intro n
  induction n with
  | zero =>
    intro r hrm
    simp only [calcLevels, List.mem_singleton] at hrm
    subst hrm
    exact ⟨by simp, by simp, by simp⟩
  | succ n ih =>
    intro r hrm
    simp only [calcLevels, extendLevel] at hrm
    rcases List.mem_flatMap.mp hrm with ⟨route, hroute, hrext⟩
    unfold extend_route at hrext
    rcases List.mem_map.mp hrext with ⟨adj, hadj, hreq⟩
    rcases List.mem_filter.mp hadj with ⟨_, hnc⟩
    rcases ih route hroute with ⟨hne, hhead, hnd⟩
    have hnotmem : adj ∉ route.hops := by
      simpa [Route.contains] using hnc
    subst hreq
    refine ⟨by simp [Route.get_incremented], ?_, ?_⟩
    · rcases hhops : route.hops with _ | ⟨x, xs⟩
      · exact absurd hhops hne
      · rw [hhops] at hhead
        simpa [Route.get_incremented, hhops] using hhead
    · simp [Route.get_incremented, List.nodup_append, hnd, hnotmem]

theorem calculate_routes_free_mem (g : Graph) (src : Nat) :
    ∀ r ∈ calculate_routes_free g src,
      r.hops ≠ [] ∧ r.hops.head? = some src ∧ r.hops.Nodup := by
  intro r hrm
  unfold calculate_routes_free at hrm
  rcases List.mem_flatMap.mp hrm with ⟨i, _, hri⟩
  exact calcLevels_mem g src i r hri

theorem is_route_meaningful_not_drone {a b : Node}
    (h : a.is_route_meaningful b = true) :
    a.node_type.to_simple ≠ SimpleNodeType.Drone ∧
    b.node_type.to_simple ≠ SimpleNodeType.Drone := by
  unfold Node.is_route_meaningful at h
  by_cases hd : a.node_type.to_simple = SimpleNodeType.Drone ∨
      b.node_type.to_simple = SimpleNodeType.Drone
  · rw [if_pos hd] at h
    exact absurd h (by simp)
  · push_neg at hd
    exact hd

theorem isHost_false_iff (nt : NodeType) :
    (match nt with
      | NodeType.Drone _ => false
      | _ => true) = false ↔ nt.to_simple = SimpleNodeType.Drone := by
  cases nt <;> simp [NodeType.to_simple]

theorem costR_nonneg (n : Node) : 0 ≤ n.costR := by
  unfold Node.costR NodeType.costR
  cases hnt : n.node_type with
  | Drone d =>
    have := droneCostR_ge_alpha (calculate_pdr_nonneg d)
    linarith
  | Server a => norm_num
  | Client a => norm_num

theorem routeCostR_nonneg (g : Graph) (r : Route) : 0 ≤ r.costR g := by
  unfold Route.costR
  refine List.sum_nonneg fun x hx => ?_
  rcases List.mem_map.mp hx with ⟨id, _, hid⟩
  rw [← hid]
  exact costR_nonneg _

/-- Claim C7: every route stored after `calculate_routes` has pairwise
distinct hop ids, begins at the router's own id, ends at a non-drone node,
carries exactly two non-drone hops with every interior hop a drone, and has
non-negative summed real-valued cost. -/
theorem calculate_routes_spec (costOf : Node → ℚ) (s : SourceRouter) :
    ∀ r ∈ ((s.calculate_routes costOf).2).routes,
      r.hops.Nodup ∧
      r.hops.head? = some s.source_id ∧
      (s.graph.getNodeD ((r.destination).getD 0)).node_type.to_simple ≠
        SimpleNodeType.Drone ∧
      (r.hops.filter fun id =>
        match (s.graph.getNodeD id).node_type with
        | NodeType.Drone _ => false
        | _ => true).length = 2 ∧
      (∀ id ∈ (r.hops.drop 1).dropLast,
        (s.graph.getNodeD id).node_type.to_simple = SimpleNodeType.Drone) ∧
      0 ≤ r.costR s.graph := by
  intro r hr
  have hr' : r ∈ (calculate_routes_free s.graph s.source_id).filter
      fun route =>
        ((route.hops.filter fun id =>
          match (s.graph.getNodeD id).node_type with
          | NodeType.Drone _ => false
          | _ => true).length = 2 ∧
        (s.graph.getNodeD s.source_id).is_route_meaningful
          (s.graph.getNodeD ((route.destination).getD 0)) = true) := by
    unfold SourceRouter.calculate_routes at hr
    dsimp only at hr
    rwa [List.mem_mergeSort] at hr
  rcases List.mem_filter.mp hr' with ⟨hmem, hpred⟩
  simp only [decide_eq_true_eq] at hpred
  obtain ⟨hcount, hmean⟩ := hpred
  rcases calculate_routes_free_mem s.graph s.source_id r hmem with ⟨hne, hhead, hnd⟩
  have hdrones := is_route_meaningful_not_drone hmean
  refine ⟨hnd, hhead, hdrones.2, hcount, ?_, routeCostR_nonneg s.graph r⟩
  -- interior hops are all drones
  rcases hhops : r.hops with _ | ⟨x, xs⟩
  · exact absurd hhops hne
  · have hxsrc : x = s.source_id := by
      rw [hhops] at hhead
      simpa using hhead
    by_cases hxs : xs = []
    · -- single-hop route: destination is the source, but then the host
      -- count would be 1, contradicting hcount = 2
      exfalso
      rw [hhops, hxs] at hcount
      have hsrc_host : (match (s.graph.getNodeD x).node_type with
          | NodeType.Drone _ => false
          | _ => true) = true := by
        rcases hm : (match (s.graph.getNodeD x).node_type with
          | NodeType.Drone _ => false
          | _ => true) with _ | _
        · exfalso
          have hx : (s.graph.getNodeD x).node_type.to_simple = SimpleNodeType.Drone :=
            (isHost_false_iff _).mp hm
          rw [hxsrc] at hx
          exact hdrones.1 hx
        · exact hm
      rw [List.filter_cons, hsrc_host] at hcount
      simp at hcount
    · -- at least two hops: xs ≠ [], decompose xs = mid ++ [dst]
      have hxs_ne : xs ≠ [] := hxs
      have hdecomp : xs.dropLast ++ [xs.getLast hxs_ne] = xs :=
        List.dropLast_append_getLast hxs_ne
      intro id hid
      simp only [List.drop_one, List.tail_cons] at hid
      -- hid : id ∈ xs.dropLast
      by_contra hnotdrone
      have hhost : (match (s.graph.getNodeD id).node_type with
          | NodeType.Drone _ => false
          | _ => true) = true := by
        rcases hm : (match (s.graph.getNodeD id).node_type with
          | NodeType.Drone _ => false
          | _ => true) with _ | _
        · exact absurd ((isHost_false_iff _).mp hm) hnotdrone
        · exact hm
      -- destination node is the last of xs, and it is a host
      have hdest : (r.destination).getD 0 = xs.getLast hxs_ne := by
        rw [Route.destination, hhops, List.getLast?_cons,
          List.getLast?_eq_getLast xs hxs_ne]
        rfl
      have hdst_host : (match (s.graph.getNodeD (xs.getLast hxs_ne)).node_type with
          | NodeType.Drone _ => false
          | _ => true) = true := by
        rcases hm : (match (s.graph.getNodeD (xs.getLast hxs_ne)).node_type with
          | NodeType.Drone _ => false
          | _ => true) with _ | _
        · exfalso
          have := (isHost_false_iff _).mp hm
          rw [← hdest] at this
          exact hdrones.2 this
        · exact hm
      have hsrc_host : (match (s.graph.getNodeD x).node_type with
          | NodeType.Drone _ => false
          | _ => true) = true := by
        rcases hm : (match (s.graph.getNodeD x).node_type with
          | NodeType.Drone _ => false
          | _ => true) with _ | _
        · exfalso
          have := (isHost_false_iff _).mp hm
          rw [hxsrc] at this
          exact hdrones.1 this
        · exact hm
      -- count the hosts: the head, the last, and the interior host id
      have hmemf : id ∈ xs.dropLast.filter fun id =>
          match (s.graph.getNodeD id).node_type with
          | NodeType.Drone _ => false
          | _ => true :=
        List.mem_filter.mpr ⟨hid, hhost⟩
      have hposf : 1 ≤ (xs.dropLast.filter fun id =>
          match (s.graph.getNodeD id).node_type with
          | NodeType.Drone _ => false
          | _ => true).length :=
        List.length_pos.mpr (List.ne_nil_of_mem hmemf)
      rw [hhops] at hcount
      rw [List.filter_cons] at hcount
      simp only [hsrc_host, if_true, List.length_cons] at hcount
      have hxsf : ((xs.filter fun id =>
          match (s.graph.getNodeD id).node_type with
          | NodeType.Drone _ => false
          | _ => true).length) =
          ((xs.dropLast.filter fun id =>
            match (s.graph.getNodeD id).node_type with
            | NodeType.Drone _ => false
            | _ => true).length) + 1 := by
        conv_lhs => rw [← hdecomp]
        rw [List.filter_append, List.filter_cons]
        simp only [hdst_host, if_true, List.filter_nil, List.length_append,
          List.length_cons, List.length_nil]
      omega

/-- Witness for C7: the chain `client 1 → drone 2 → server 3` yields the
stored route `[1, 2, 3]`, which satisfies every conjunct. -/
theorem calculate_routes_spec_witness :
    (⟨[1, 2, 3]⟩ : Route) ∈
      ((router7Chain.calculate_routes costLowHistory).2).routes ∧
    ([1, 2, 3] : List Nat).Nodup ∧
    0 ≤ Route.costR ⟨[1, 2, 3]⟩ router7Chain.graph := by
  have hmem : (⟨[1, 2, 3]⟩ : Route) ∈
      ((router7Chain.calculate_routes costLowHistory).2).routes := by
    unfold SourceRouter.calculate_routes
    dsimp only
    rw [List.mem_mergeSort]
    decide
  have h := calculate_routes_spec costLowHistory router7Chain ⟨[1, 2, 3]⟩ hmem
  exact ⟨hmem, h.1, h.2.2.2.2.2⟩

/-! ### C6: UnexpectedRecipient nack handling -/

/-- Claim C6 (amended): on a `Nack` of kind `UnexpectedRecipient(who)`, the
client applies `router.unwanted_node(who)` to the graph-updated router,
sends nothing (in particular it does not retransmit) and leaves the
disassembler untouched; the server ignores the nack entirely — only the
generic graph update applies, `unwanted_node` is never called and nothing
is retransmitted. -/
theorem unexpected_recipient_spec {Creq Cresp : Type}
    (deserReq : List Nat → Option (Message Creq))
    (serResp : Message Cresp → List Nat)
    (handle_request : Message Creq → Nat → Message Cresp)
    (deserResp : List Nat → Option (Message Cresp))
    (costOf : Node → ℚ) (s : HostState) (packet : Packet)
    (fragment_index who : Nat)
    (hp : packet.pack_type =
      PacketType.Nack ⟨fragment_index, NackType.UnexpectedRecipient who⟩)
    (r1 : SourceRouter) (hup : s.router.update_graph packet = some r1) :
    handleClientPacket deserResp costOf s packet =
      some ({ s with router := r1.unwanted_node who }, [], [], []) ∧
    handleServerPacket deserReq serResp handle_request costOf s packet =
      some ({ s with router := r1 }, [], []) := by
  constructor
  · unfold handleClientPacket
    rw [hup, hp]
  · unfold handleServerPacket
    rw [hup, hp]

/-- Witness for C6: client 10 receiving `UnexpectedRecipient(5)` and
server 2 receiving `UnexpectedRecipient(7)`. -/
theorem unexpected_recipient_spec_witness :
    handleClientPacket unitMsgDeserNone costLowHistory client10
      unexpectedNackToClient =
      some ({ client10 with router := client10NackRouter.unwanted_node 5 },
        [], [], []) ∧
    handleServerPacket unitMsgDeserNone unitMsgSer unitHandleRequest
      costLowHistory server2Peer7 unexpectedNackPacket =
      some ({ server2Peer7 with router := server2Peer7NackRouter }, [], []) :=
  ⟨(unexpected_recipient_spec unitMsgDeserNone unitMsgSer unitHandleRequest
      unitMsgDeserNone costLowHistory client10 unexpectedNackToClient 0 5 rfl
      client10NackRouter (by rfl)).1,
   (unexpected_recipient_spec unitMsgDeserNone unitMsgSer unitHandleRequest
      unitMsgDeserNone costLowHistory server2Peer7 unexpectedNackPacket 0 7 rfl
      server2Peer7NackRouter (by rfl)).2⟩

/-- Counterexample for C6 as stated: after server 2 handles
`UnexpectedRecipient(7)`, its stored route to 7 survives, node 7 is still
`Server Chat` (not `Unwanted`), and nothing was sent — the server never
calls `unwanted_node`. -/
theorem unexpected_recipient_counterexample :
    ((handleServerPacket unitMsgDeserNone unitMsgSer unitHandleRequest
        costLowHistory server2Peer7 unexpectedNackPacket).map fun out =>
      (out.1.router.routes, out.1.router.graph.getNode 7, out.2.1)) =
      some ([⟨[2, 3, 7]⟩], some ⟨7, NodeType.Server ApplicationType.Chat⟩, []) := by
  rfl

/-! ### C4: MsgFragment handling -/

theorem serverForward_eq (ps : List Nat) (p : Packet) (nh : Nat)
    (hnh : p.routing_header.next_hop = some nh) (hmem : nh ∈ ps) :
    serverForward ps p =
      some [(nh, { p with routing_header := p.routing_header.increase_hop_index })] := by
  unfold serverForward
  rw [hnh]
  simp [List.contains, hmem]

/-- Claim C4 (amended): on a `MsgFragment`, the server acks along the
reversed routing header (the first packet it sends is that ack, advanced
one hop), while the client acks along its current best route to the
packet's source — not the reversed header (see the counterexample).  On
completion both emit `MessageReceived`; the client forgets the session in
its assembler and delivers the message to `on_response_received`, whereas
the server keeps the completed session in its assembler (no forget) and
synthesizes and sends the behaviour's response. -/
theorem msg_fragment_spec {Creq Cresp : Type}
    (deserReq : List Nat → Option (Message Creq))
    (serResp : Message Cresp → List Nat)
    (handle_request : Message Creq → Nat → Message Cresp)
    (deserResp : List Nat → Option (Message Cresp))
    (costOf : Node → ℚ) :
    (∀ (s : HostState) (packet : Packet) (frag : Fragment) s1 sent ev nh,
      packet.pack_type = PacketType.MsgFragment frag →
      handleServerPacket deserReq serResp handle_request costOf s packet =
        some (s1, sent, ev) →
      packet.routing_header.get_reversed.next_hop = some nh →
      nh ∈ s.packet_send →
      sent.head? = some (nh,
        Packet.new_ack packet.routing_header.get_reversed.increase_hop_index
          packet.session_id frag.fragment_index)) ∧
    (∀ (s : HostState) (packet : Packet) (frag : Fragment) s1 sent ev
        (m : Message Creq) asm1,
      packet.pack_type = PacketType.MsgFragment frag →
      s.assembler.insert_fragment deserReq packet.session_id frag =
        (some (ComposeOut.ok m), asm1) →
      handleServerPacket deserReq serResp handle_request costOf s packet =
        some (s1, sent, ev) →
      ev = [Message.eventReceived m, Message.eventSent (handle_request m s.id)] ∧
      s1.assembler = asm1 ∧
      AList.lookup packet.session_id s1.assembler.fragments ≠ none) ∧
    (∀ (s : HostState) (packet : Packet) (frag : Fragment) out r1 src hdr,
      packet.pack_type = PacketType.MsgFragment frag →
      s.router.update_graph packet = some r1 →
      packet.routing_header.source = some src →
      (r1.get_best_route costOf src).1 = some hdr →
      handleClientPacket deserResp costOf s packet = some out →
      out.2.1 = clientForward s.packet_send
        (Packet.new_ack hdr packet.session_id frag.fragment_index)) ∧
    (∀ (s : HostState) (packet : Packet) (frag : Fragment) out
        (m : Message Cresp) asm1,
      packet.pack_type = PacketType.MsgFragment frag →
      s.assembler.insert_fragment deserResp packet.session_id frag =
        (some (ComposeOut.ok m), asm1) →
      handleClientPacket deserResp costOf s packet = some out →
      out.1.assembler = asm1.forget packet.session_id ∧
      out.2.2.1 = [Message.eventReceived m] ∧
      out.2.2.2 = [m]) := by
  refine ⟨?_, ?_, ?_, ?_⟩
  · -- (a) the server's ack goes along the reversed header
    intro s packet frag s1 sent ev nh hp hrun hnh hmem
    rcases hup : s.router.update_graph packet with _ | r1
    · unfold handleServerPacket at hrun
      rw [hup] at hrun
      simp at hrun
    · unfold handleServerPacket at hrun
      rw [hup, hp] at hrun
      try dsimp only at hrun
      rw [serverForward_eq s.packet_send _ nh hnh hmem] at hrun
      try simp only [Option.some_bind] at hrun
      rcases hins : s.assembler.insert_fragment
          (M := Message Creq) deserReq packet.session_id frag with ⟨res, asm1⟩
      rw [hins] at hrun
      try dsimp only at hrun
      rcases res with _ | co
      · simp only [Option.some.injEq, Prod.mk.injEq] at hrun
        obtain ⟨-, hsent, -⟩ := hrun
        rw [← hsent]
        rfl
      · rcases co with _ | _ | m
        all_goals try dsimp only at hrun
        · simp at hrun
        · rcases hsf : serverForward s.packet_send
              (Packet.new_nack packet.routing_header.get_reversed
                packet.session_id ⟨0, NackType.UnexpectedRecipient s.id⟩)
              with _ | out2
          · rw [hsf] at hrun
            simp at hrun
          · rw [hsf] at hrun
            simp only [Option.some_bind, Option.some.injEq, Prod.mk.injEq] at hrun
            obtain ⟨-, hsent, -⟩ := hrun
            rw [← hsent]
            rfl
        · rcases hsr : serverSendResponse serResp costOf s.packet_send r1
              s.disassembler (handle_request m s.id) with _ | ⟨r2, d2, out2⟩
          · rw [hsr] at hrun
            simp at hrun
          · rw [hsr] at hrun
            simp only [Option.some_bind, Option.some.injEq, Prod.mk.injEq] at hrun
            obtain ⟨-, hsent, -⟩ := hrun
            rw [← hsent]
            rfl
  · -- (b) server completion: events, no forget
    intro s packet frag s1 sent ev m asm1 hp hins hrun
    rcases hup : s.router.update_graph packet with _ | r1
    · unfold handleServerPacket at hrun
      rw [hup] at hrun
      simp at hrun
    · unfold handleServerPacket at hrun
      rw [hup, hp] at hrun
      try dsimp only at hrun
      rcases hsf : serverForward s.packet_send
          (Packet.new_ack packet.routing_header.get_reversed packet.session_id
            frag.fragment_index) with _ | ackSent
      · rw [hsf] at hrun
        simp at hrun
      · rw [hsf] at hrun
        try dsimp only at hrun
        rw [hins] at hrun
        try dsimp only at hrun
        rcases hsr : serverSendResponse serResp costOf s.packet_send r1
            s.disassembler (handle_request m s.id) with _ | ⟨r2, d2, out2⟩
        · rw [hsr] at hrun
          simp at hrun
        · rw [hsr] at hrun
          simp only [Option.some_bind, Option.some.injEq, Prod.mk.injEq] at hrun
          obtain ⟨hs1, -, hev⟩ := hrun
          refine ⟨hev.symm, ?_, ?_⟩
          · rw [← hs1]
          · rw [← hs1]
            have : asm1.fragments =
                AList.insert packet.session_id
                  (AList.insert frag.fragment_index frag
                    ((AList.lookup packet.session_id s.assembler.fragments).getD []))
                  s.assembler.fragments := by
              unfold Assembler.insert_fragment at hins
              dsimp only at hins
              split at hins
              · simp only [Prod.mk.injEq] at hins
                rw [← hins.2]
              · simp only [Prod.mk.injEq] at hins
                cases hins.1
            rw [this, AList.lookup_insert_self]
            simp
  · -- (c) the client's ack goes along the best route to the source
    intro s packet frag out r1 src hdr hp hup hsrc hbest hrun
    unfold handleClientPacket at hrun
    rw [hup, hp] at hrun
    try dsimp only at hrun
    rw [hsrc] at hrun
    try dsimp only at hrun
    rcases hgb : r1.get_best_route costOf src with ⟨hdrOpt, r2⟩
    rw [hgb] at hrun
    rw [hgb] at hbest
    simp only [] at hbest
    rw [hbest] at hrun
    try dsimp only at hrun
    rcases hins : s.assembler.insert_fragment
        (M := Message Cresp) deserResp packet.session_id frag with ⟨res, asm1⟩
    rw [hins] at hrun
    rcases res with _ | co
    · simp only [Option.some.injEq] at hrun
      rw [← hrun]
    · rcases co with _ | _ | m
      · simp at hrun
      · simp at hrun
      · simp only [Option.some.injEq] at hrun
        rw [← hrun]
  · -- (d) client completion: forget and deliver
    intro s packet frag out m asm1 hp hins hrun
    unfold handleClientPacket at hrun
    rcases hup : s.router.update_graph packet with _ | r1
    · rw [hup] at hrun
      simp at hrun
    · rw [hup, hp] at hrun
      try dsimp only at hrun
      rcases hsrc : packet.routing_header.source with _ | src
      · rw [hsrc] at hrun
        simp at hrun
      · rw [hsrc] at hrun
        try dsimp only at hrun
        rcases hgb : r1.get_best_route costOf src with ⟨hdrOpt, r2⟩
        rw [hgb] at hrun
        rcases hdrOpt with _ | hdr
        · simp at hrun
        · try dsimp only at hrun
          rw [hins] at hrun
          simp only [Option.some.injEq] at hrun
          rw [← hrun]
          exact ⟨rfl, rfl, rfl⟩

/-- Run equation for the client's MsgFragment branch, once the graph
update, the packet source and the best route are known. -/
theorem handleClientPacket_run {Cresp : Type}
    (deserResp : List Nat → Option (Message Cresp))
    (costOf : Node → ℚ) (s : HostState) (packet : Packet) (frag : Fragment)
    (r1 r2 : SourceRouter) (src : Nat) (hdr : SourceRoutingHeader)
    (hp : packet.pack_type = PacketType.MsgFragment frag)
    (hup : s.router.update_graph packet = some r1)
    (hsrc : packet.routing_header.source = some src)
    (hgb : r1.get_best_route costOf src = (some hdr, r2)) :
    handleClientPacket deserResp costOf s packet =
      (match s.assembler.insert_fragment deserResp packet.session_id frag with
       | (none, assembler) =>
         some ({ s with router := r2, assembler },
           clientForward s.packet_send
             (Packet.new_ack hdr packet.session_id frag.fragment_index), [], [])
       | (some (ComposeOut.ok message), assembler) =>
         some ({ s with router := r2, assembler := assembler.forget packet.session_id },
           clientForward s.packet_send
             (Packet.new_ack hdr packet.session_id frag.fragment_index),
           [Message.eventReceived message], [message])
       | (some ComposeOut.err, _) => none
       | (some ComposeOut.panicked, _) => none) := by
  unfold handleClientPacket
  rw [hup, hp]
  dsimp only
  rw [hsrc]
  dsimp only
  rw [hgb]

/-- The best route client 10 holds towards node 5 after the graph update
for an inbound fragment from 5: the stored route `10 → 42 → 5`. -/
theorem client10FragRouter_best :
    client10FragRouter.get_best_route costLowHistory 5 =
      (some ⟨[10, 42, 5], 0⟩,
       { client10FragRouter with request_count := 1 }) := by
  have hfil : client10FragRouter.routes.filter
      (fun route => route.destination = some 5) = [⟨[10, 42, 5]⟩] := rfl
  have hcost : ∀ r ∈ client10FragRouter.routes.filter
      (fun route => route.destination = some 5),
      r.cost client10FragRouter.graph costLowHistory =
        Route.cost ⟨[10, 42, 5]⟩ client10FragRouter.graph costLowHistory := by
    intro r hr
    rw [hfil] at hr
    simp only [List.mem_singleton] at hr
    rw [hr]
  have hne : client10FragRouter.routes.filter
      (fun route => route.destination = some 5) ≠ [] := by
    rw [hfil]
    simp
  rw [get_best_route_equal_cost costLowHistory client10FragRouter 5 _ hcost hne]
  rw [hfil]
  rfl

/-- Counterexample for C4 as stated: the ack client 10 sends for an inbound
fragment routed `5 → 99 → 10` travels `10 → 42 → 5` (its stored best
route to the source), not along the reversed route `10 → 99 → 5`. -/
theorem msg_fragment_counterexample :
    ((handleClientPacket oneMsgClientDeser costLowHistory client10
        fragPacketVia99).map fun out =>
      out.2.1.map fun sp => (sp.1, sp.2.routing_header.hops)) =
      some [(42, [10, 42, 5])] ∧
    fragPacketVia99.routing_header.get_reversed.hops = [10, 99, 5] ∧
    ([10, 42, 5] : List Nat) ≠ [10, 99, 5] := by
  refine ⟨?_, rfl, by decide⟩
  rw [handleClientPacket_run oneMsgClientDeser costLowHistory client10
    fragPacketVia99 fragHalf65 client10FragRouter
    { client10FragRouter with request_count := 1 } 5 ⟨[10, 42, 5], 0⟩
    rfl rfl rfl client10FragRouter_best]
  rfl

/-- Witness for C4: on concrete hosts, an incomplete fragment makes
server 2 ack along the reversed header towards drone 3; a completing
fragment makes it emit the received/sent events while the session stays in
its assembler; client 10 acks an inbound fragment along its stored best
route to the source, and on completion forgets the session and delivers
the message. -/
theorem msg_fragment_spec_witness :
    ((handleServerPacket oneMsgServerDeser emptySer unitHandleRequest costLowHistory
        server2Routed fragPacketVia3Incomplete).getD hostTripleDefault).2.1.head? =
      some (3, Packet.new_ack
        fragPacketVia3Incomplete.routing_header.get_reversed.increase_hop_index 11 0) ∧
    ((handleServerPacket oneMsgServerDeser emptySer unitHandleRequest costLowHistory
        server2Routed oneFragPacketVia3).getD hostTripleDefault).2.2 =
      [Message.eventReceived oneMsgServer,
       Message.eventSent (unitHandleRequest oneMsgServer 2)] ∧
    AList.lookup 11 ((handleServerPacket oneMsgServerDeser emptySer unitHandleRequest
        costLowHistory server2Routed oneFragPacketVia3).getD
        hostTripleDefault).1.assembler.fragments ≠ none ∧
    ((handleClientPacket oneMsgClientDeser costLowHistory client10
        fragPacketVia99).getD clientQuadDefault).2.1 =
      clientForward client10.packet_send (Packet.new_ack ⟨[10, 42, 5], 0⟩ 7 0) ∧
    ((handleClientPacket oneMsgClientDeser costLowHistory client10
        oneFragPacketVia99).getD clientQuadDefault).1.assembler =
      Assembler.forget ⟨[(7, [(0, fragFull65)])]⟩ 7 ∧
    ((handleClientPacket oneMsgClientDeser costLowHistory client10
        oneFragPacketVia99).getD clientQuadDefault).2.2.1 =
      [Message.eventReceived oneMsgClient] ∧
    ((handleClientPacket oneMsgClientDeser costLowHistory client10
        oneFragPacketVia99).getD clientQuadDefault).2.2.2 = [oneMsgClient] := by
  obtain ⟨ha, hb, hc, hd⟩ := msg_fragment_spec oneMsgServerDeser emptySer
    unitHandleRequest oneMsgClientDeser costLowHistory
  have hbest : (client10FragRouter.get_best_route costLowHistory 5).1 =
      some ⟨[10, 42, 5], 0⟩ := by rw [client10FragRouter_best]
  have hrunC : handleClientPacket oneMsgClientDeser costLowHistory client10
      fragPacketVia99 =
      some ({ client10 with
          router := { client10FragRouter with request_count := 1 },
          assembler := ⟨[(7, [(0, fragHalf65)])]⟩ },
        [(42, ackToSrvPkt)], [], []) :=
    (handleClientPacket_run oneMsgClientDeser costLowHistory client10 fragPacketVia99
      fragHalf65 client10FragRouter { client10FragRouter with request_count := 1 } 5
      ⟨[10, 42, 5], 0⟩ rfl rfl rfl client10FragRouter_best).trans rfl
  have hrunD : handleClientPacket oneMsgClientDeser costLowHistory client10
      oneFragPacketVia99 =
      some ({ client10 with
          router := { client10FragRouter with request_count := 1 },
          assembler := Assembler.forget ⟨[(7, [(0, fragFull65)])]⟩ 7 },
        [(42, ackToSrvPkt)], [Message.eventReceived oneMsgClient], [oneMsgClient]) :=
    (handleClientPacket_run oneMsgClientDeser costLowHistory client10 oneFragPacketVia99
      fragFull65 client10FragRouter { client10FragRouter with request_count := 1 } 5
      ⟨[10, 42, 5], 0⟩ rfl rfl rfl client10FragRouter_best).trans rfl
  refine ⟨?_, ?_, ?_, ?_, ?_, ?_, ?_⟩
  · exact ha server2Routed fragPacketVia3Incomplete fragHalf65 _ _ _ 3
      rfl rfl rfl (by decide)
  · exact (hb server2Routed oneFragPacketVia3 fragFull65 _ _ _ oneMsgServer _
      rfl rfl rfl).1
  · exact (hb server2Routed oneFragPacketVia3 fragFull65 _ _ _ oneMsgServer _
      rfl rfl rfl).2.2
  · have h4 := hc client10 fragPacketVia99 fragHalf65 _ client10FragRouter 5
      ⟨[10, 42, 5], 0⟩ rfl rfl rfl hbest hrunC
    rw [hrunC]
    try exact h4
  · have h5 := (hd client10 oneFragPacketVia99 fragFull65 _ oneMsgClient
      ⟨[(7, [(0, fragFull65)])]⟩ rfl rfl hrunD).1
    rw [hrunD]
    try exact h5
  · have h6 := (hd client10 oneFragPacketVia99 fragFull65 _ oneMsgClient
      ⟨[(7, [(0, fragFull65)])]⟩ rfl rfl hrunD).2.1
    rw [hrunD]
    try exact h6
  · have h7 := (hd client10 oneFragPacketVia99 fragFull65 _ oneMsgClient
      ⟨[(7, [(0, fragFull65)])]⟩ rfl rfl hrunD).2.2
    rw [hrunD]
    try exact h7

end Droning
